import Mathlib

/-!
Shallow embedding of the `naichii-agent` installer CLI
(`tools/installer/bin/naichii-agent.js`).

The installer is a single linear flow (`installFramework`): resolve the
target directory from the `--directory` option and the invocation
environment, confirm creation of a missing target directory, prompt for a
checkbox selection of components, copy each selected component tree into
`<target>/.naichii-agent/...`, write a generated `README.md`, and
conditionally append a commented suggestion block to a pre-existing
`.gitignore`.

The filesystem is modelled as a store of files (association list, newest
entry first, so a later write shadows an earlier one) plus a list of
created directories; `mkdir -p` semantics are obtained by recording the
deepest directory and treating every ancestor as existing.  Fallible I/O
(`fs.copy`, `fs.writeFile`, `fs.readFile`) is driven by failure oracles in
the `World`, abstracting environment-dependent errors.  The interactive
prompts are modelled by the answers the user eventually gives: the
directory-creation confirmation as a `Bool`, and the checkbox prompt as the
list of successive submissions, of which the library returns the first one
that passes the `validate` callback (re-prompting on invalid submissions).
-/

namespace NaichiiAgent

/-! ### Filesystem model -/

/-- A filesystem: file store (newest binding first; lookup takes the first
match, so writing shadows) and the list of directories created so far.
A directory exists if it is recorded or is an ancestor of a recorded one. -/
structure FS where
  files : List (String × String)
  dirs : List String
deriving DecidableEq, Repr

/-- Content of the file at `p`, if a file was written there. -/
def lookupFile (fs : FS) (p : String) : Option String :=
  (fs.files.find? (fun e => e.1 = p)).map (fun e => e.2)

/-- `d` makes `q` exist as a directory: `d` is `q` itself or lies below it. -/
def coveredBy (q d : String) : Bool :=
  d = q || (q ++ "/").data.isPrefixOf d.data

/-- Directory existence under `mkdir -p` semantics. -/
def FS.isDir (fs : FS) (q : String) : Bool :=
  fs.dirs.any (fun d => coveredBy q d)

/-- `fs.pathExists(p)`: true for a file or a directory at `p`. -/
def pathExists (fs : FS) (p : String) : Bool :=
  fs.isDir p || (lookupFile fs p).isSome

/-- `fs.writeFile` / the file-level effect of `fs.copy` on one file:
the new binding shadows any previous one. -/
def setFile (fs : FS) (p c : String) : FS :=
  { fs with files := (p, c) :: fs.files }

/-- `fs.ensureDir(p)` (`mkdir -p`): record `p`; ancestors exist via
`coveredBy`. -/
def ensureDir (fs : FS) (p : String) : FS :=
  { fs with dirs := if fs.dirs.contains p then fs.dirs else p :: fs.dirs }

/-! ### Paths (POSIX, as used by `node:path`) -/

/-- `path.join(a, b)` for the clean segment arguments used by the
installer (no normalization is needed for them). -/
def pjoin (a b : String) : String := a ++ "/" ++ b

/-- `path.isAbsolute`. -/
def isAbsolute (p : String) : Bool :=
  match p.data with
  | c :: _ => c = '/'
  | _ => false

/-- Split a character list at `'/'` boundaries. -/
def splitSegsAux (cur : List Char) : List Char → List (List Char)
  | [] => [cur.reverse]
  | c :: cs => if c = '/' then cur.reverse :: splitSegsAux [] cs else splitSegsAux (c :: cur) cs

/-- Non-empty path segments. -/
def splitSegs (p : String) : List String :=
  ((splitSegsAux [] p.data).map (fun l => String.mk l)).filter (fun s => s ≠ "")

/-- Normalize segments: drop `.`, let `..` pop the previous segment
(or vanish at the root). -/
def normSegs (acc : List String) : List String → List String
  | [] => acc.reverse
  | s :: rest =>
    if s = "." then normSegs acc rest
    else if s = ".." then normSegs (acc.drop 1) rest
    else normSegs (s :: acc) rest

/-- `path.resolve(base, p)` for an absolute `base` and relative `p`. -/
def resolvePath (base p : String) : String :=
  "/" ++ String.intercalate "/" (normSegs [] (splitSegs (base ++ "/" ++ p)))

/-! ### World and user input -/

/-- Ambient inputs of one run: environment variables, process cwd, the
package root (`path.join(__dirname, '..', '..', '..')`), the initial
filesystem, the content of each source tree (relative path, content)
pairs, and the I/O failure oracles. -/
structure World where
  initCwd : Option String
  pwdEnv : Option String
  cwd : String
  packageRoot : String
  fs : FS
  srcTree : String → List (String × String)
  copyFails : String → Bool
  writeFails : String → Bool
  readFails : String → Bool

/-- Answers the user gives to the interactive prompts. -/
structure UserInput where
  createDirAnswer : Bool
  submissions : List (List String)

/-- JavaScript `a || b` on an environment variable: an unset or empty
string falls through. -/
def jsEnvOr (v : Option String) (d : String) : String :=
  match v with
  | some s => if s = "" then d else s
  | none => d

/-- Lines 66-69: `INIT_CWD || PWD || process.cwd()`, then either the
verbatim absolute path or resolution against the recovered cwd. -/
def resolveInstallDir (initCwd pwdEnv : Option String) (cwd directoryOpt : String) : String :=
  let originalCwd := jsEnvOr initCwd (jsEnvOr pwdEnv cwd)
  if isAbsolute directoryOpt then directoryOpt
  else resolvePath originalCwd directoryOpt

/-! ### Component catalog (lines 120-151: the four conditional copies,
in source order) -/

/-- One installable component: checkbox id, source path relative to the
package root, destination path relative to `.naichii-agent`, and the label
printed in the per-component report. -/
structure Component where
  id : String
  sourceRel : String
  destRel : String
  label : String
deriving DecidableEq, Repr

/-- The hidden framework directory name. -/
def frameworkDirName : String := ".naichii-agent"

/-- The four components, in the order the source processes them. -/
def catalog : List Component :=
  [ ⟨"javascript", "context/rules/javascript", "rules/javascript", "JavaScript Rules"⟩,
    ⟨"js-memory", "context/memory/javascript", "memory/javascript", "JavaScript Memory"⟩,
    ⟨"sql", "context/rules/sql", "rules/sql", "SQL Rules"⟩,
    ⟨"sql-memory", "context/memory/sql", "memory/sql", "SQL Memory"⟩ ]

/-- Absolute source path of a component. -/
def srcPath (w : World) (c : Component) : String :=
  pjoin w.packageRoot c.sourceRel

/-- Absolute destination path of a component under the target. -/
def destPath (installDir : String) (c : Component) : String :=
  pjoin (pjoin installDir frameworkDirName) c.destRel

/-! ### `copyDirectory` (lines 213-223) -/

/-- Write every file of a source tree below `dest`, later entries
shadowing earlier ones (`fs.copy` with `overwrite: true`). -/
def copyTree (entries : List (String × String)) (dest : String) (fs : FS) : FS :=
  entries.foldl (fun a e => setFile a (pjoin dest e.1) e.2) fs

/-- `copyDirectory(source, destination, label)`: `ensureDir` the
destination first, then attempt the copy; any error is caught and reported
as `false`, leaving the created directories in place.  The `copyFails`
oracle abstracts the copy raising (for example a missing or unreadable
source tree). -/
def copyDirectory (w : World) (fs : FS) (source destination : String) : FS × Bool :=
  let fs1 := ensureDir fs destination
  if w.copyFails source then (fs1, false)
  else (copyTree (w.srcTree source) destination fs1, true)

/-- The component-copy phase: fold the catalog in source order, copying
each selected component and appending `(label, succeeded)` to the report.
A failed copy never stops the fold. -/
def installComponents (w : World) (installDir : String) (components : List String)
    (acc : FS × List (String × Bool)) : FS × List (String × Bool) :=
  catalog.foldl
    (fun a c =>
      if components.contains c.id then
        let r := copyDirectory w a.1 (srcPath w c) (destPath installDir c)
        (r.1, a.2 ++ [(c.label, r.2)])
      else a)
    acc

/-! ### README template (lines 154-193) -/

def readmeHeader : String :=
  "# AI Agent Framework\n\nThis project uses the AI Agent Framework for maintaining code quality and consistency.\n\n## Installed Components\n\n"

def jsRulesLine : String :=
  "- JavaScript Rules & Guidelines (`.naichii-agent/rules/javascript/`)"

def sqlRulesLine : String :=
  "- SQL Rules & Guidelines (`.naichii-agent/rules/sql/`)"

def jsMemoryLine : String :=
  "- JavaScript Memory Context (`.naichii-agent/memory/javascript/`)"

def sqlMemoryLine : String :=
  "- SQL Memory Context (`.naichii-agent/memory/sql/`)"

def readmeFooter : String :=
  "\n## Structure\n\n```\n.naichii-agent/\n├── rules/           # Coding guidelines and best practices\n│   ├── javascript/  # JavaScript-specific rules\n│   └── sql/         # SQL-specific rules\n└── memory/          # Context and memory for AI agents\n    ├── javascript/  # JavaScript context\n    └── sql/         # SQL context\n```\n\n## Usage\n\nThe AI agent will automatically reference these files when working on your project.\nYou can also reference them manually when needed.\n\n## Updating\n\nTo update the framework, run:\n```bash\nnpx naichii-agent install\n```\n"

/-- `instructionsContent`: the template interpolates one line per
component *requested* (`components.includes(...)`), an empty string plus
the template newline otherwise.  Note the README line order (javascript,
sql, js-memory, sql-memory) differs from the copy order. -/
def readmeContent (components : List String) : String :=
  readmeHeader
    ++ (if components.contains "javascript" then jsRulesLine else "") ++ "\n"
    ++ (if components.contains "sql" then sqlRulesLine else "") ++ "\n"
    ++ (if components.contains "js-memory" then jsMemoryLine else "") ++ "\n"
    ++ (if components.contains "sql-memory" then sqlMemoryLine else "") ++ "\n"
    ++ readmeFooter

/-! ### `.gitignore` step (lines 197-206) -/

/-- An apostrophe character (kept out of string literals). -/
def apos : String := String.singleton (Char.ofNat 39)

/-- The commented suggestion block appended to `.gitignore`. -/
def gitignoreBlock : String :=
  "\n# Naichii Agent Framework\n# Uncomment if you don" ++ apos
    ++ "t want to commit the framework\n# .naichii-agent/\n"

/-- `pat` is a prefix of `s` (executable, on character lists). -/
def startsWithL : List Char → List Char → Bool
  | [], _ => true
  | _ :: _, [] => false
  | p :: ps, c :: cs => p = c && startsWithL ps cs

/-- `pat` occurs somewhere in `s` (JavaScript `String.prototype.includes`
on these ASCII strings). -/
def containsSub (pat : List Char) : List Char → Bool
  | [] => startsWithL pat []
  | c :: cs => startsWithL pat (c :: cs) || containsSub pat cs

/-- `gitignore.includes('.naichii-agent')`: a plain substring test. -/
def containsMarker (g : String) : Bool :=
  containsSub frameworkDirName.data g.data

/-! ### Run outcome and the full flow -/

/-- How one `install` run ends.  `cancelled` is the plain `return` after a
declined directory creation; `pending` means the checkbox prompt never
received a valid submission (the library keeps re-prompting, so the
process neither completes nor exits); `errored` is a thrown error caught
by the command action, which prints it and calls `process.exit(1)`. -/
inductive RunOutcome
  | cancelled
  | pending
  | completed
  | errored (msg : String)
deriving DecidableEq, Repr

/-- The exit code of the process, `none` while it is still blocked on the
prompt. -/
def exitCode : RunOutcome → Option Nat
  | RunOutcome.cancelled => some 0
  | RunOutcome.pending => none
  | RunOutcome.completed => some 0
  | RunOutcome.errored _ => some 1

/-- Result of a run: final filesystem, outcome, per-component report. -/
structure RunResult where
  fs : FS
  outcome : RunOutcome
  report : List (String × Bool)
deriving DecidableEq, Repr

/-- The `validate` callback of the checkbox prompt (lines 106-111). -/
inductive ValidateOutcome
  | valid
  | invalid (msg : String)
deriving DecidableEq, Repr

def ValidateOutcome.isValid : ValidateOutcome → Bool
  | ValidateOutcome.valid => true
  | ValidateOutcome.invalid _ => false

def componentsValidate (selected : List String) : ValidateOutcome :=
  if selected.length = 0 then ValidateOutcome.invalid "Please select at least one component"
  else ValidateOutcome.valid

/-- The checkbox prompt resolves with the first submission passing
`validate`, re-prompting on each rejected one; with no valid submission it
never resolves. -/
def checkboxPrompt (submissions : List (List String)) : Option (List String) :=
  submissions.find? (fun s => (componentsValidate s).isValid)

/-- Lines 154-206: write the generated README (a failure here throws),
then, if a `.gitignore` exists at the target, read it and append the
suggestion block unless it already contains the `.naichii-agent`
substring.  A read or write failure in the `.gitignore` step also throws;
reading succeeds only when the path is an actual file. -/
def finishInstall (w : World) (installDir : String) (components : List String)
    (fs : FS) (report : List (String × Bool)) : RunResult :=
  let readmePath := pjoin (pjoin installDir frameworkDirName) "README.md"
  if w.writeFails readmePath then ⟨fs, RunOutcome.errored "README write failed", report⟩
  else
    let fs1 := setFile fs readmePath (readmeContent components)
    let gitignorePath := pjoin installDir ".gitignore"
    if pathExists fs1 gitignorePath then
      if w.readFails gitignorePath then
        ⟨fs1, RunOutcome.errored "gitignore read failed", report⟩
      else
        match lookupFile fs1 gitignorePath with
        | none => ⟨fs1, RunOutcome.errored "gitignore read failed", report⟩
        | some g =>
          if containsMarker g then ⟨fs1, RunOutcome.completed, report⟩
          else if w.writeFails gitignorePath then
            ⟨fs1, RunOutcome.errored "gitignore write failed", report⟩
          else ⟨setFile fs1 gitignorePath (g ++ gitignoreBlock), RunOutcome.completed, report⟩
    else ⟨fs1, RunOutcome.completed, report⟩

/-- Everything after the target directory is settled: prompt for the
selection, copy, finish. -/
def promptAndInstall (w : World) (installDir : String) (u : UserInput) (fs : FS) : RunResult :=
  match checkboxPrompt u.submissions with
  | none => ⟨fs, RunOutcome.pending, []⟩
  | some components =>
    let r := installComponents w installDir components (fs, [])
    finishInstall w installDir components r.1 r.2

/-- `installFramework(options)` (lines 56-211). -/
def installFramework (w : World) (u : UserInput) (directoryOpt : String) : RunResult :=
  let installDir := resolveInstallDir w.initCwd w.pwdEnv w.cwd directoryOpt
  if pathExists w.fs installDir then promptAndInstall w installDir u w.fs
  else if u.createDirAnswer then promptAndInstall w installDir u (ensureDir w.fs installDir)
  else ⟨w.fs, RunOutcome.cancelled, []⟩

/-- The resolved installation directory of a run. -/
def resolvedDir (w : World) (directoryOpt : String) : String :=
  resolveInstallDir w.initCwd w.pwdEnv w.cwd directoryOpt

/-- The filesystem at the time the checkbox prompt is answered: unchanged
if the target directory existed, otherwise with the target directory
created. -/
def installBase (w : World) (d : String) : FS :=
  if pathExists w.fs (resolvedDir w d) then w.fs
  else ensureDir w.fs (resolvedDir w d)

/-! ### Derived definitions used by the lemmas -/

/-- The net effect of a list of `(path, content)` writes on the content
seen at `p`: the last write to `p` wins, otherwise the old value shows. -/
def overrList (ws : List (String × String)) (p : String) (v : Option String) : Option String :=
  match ws.reverse.find? (fun e => e.1 = p) with
  | some e => some e.2
  | none => v

/-- The `(path, content)` pairs one component contributes. -/
def componentWrites (w : World) (installDir : String) (components : List String)
    (c : Component) : List (String × String) :=
  if components.contains c.id then
    if w.copyFails (srcPath w c) then []
    else (w.srcTree (srcPath w c)).map (fun e => (pjoin (destPath installDir c) e.1, e.2))
  else []

/-- The `(path, content)` pairs a component list contributes, in order. -/
def writesOf (w : World) (installDir : String) (components : List String)
    (cs : List Component) : List (String × String) :=
  (cs.map (componentWrites w installDir components)).flatten

/-- The per-component report a component list contributes. -/
def reportOf (w : World) (components : List String) (cs : List Component) :
    List (String × Bool) :=
  (cs.filter (fun c => components.contains c.id)).map
    (fun c => (c.label, !w.copyFails (srcPath w c)))

/-- One step of the component fold (the body of `installComponents`). -/
def icStep (w : World) (installDir : String) (components : List String)
    (a : FS × List (String × Bool)) (c : Component) : FS × List (String × Bool) :=
  if components.contains c.id then
    let r := copyDirectory w a.1 (srcPath w c) (destPath installDir c)
    (r.1, a.2 ++ [(c.label, r.2)])
  else a

/-- A world with an existing target directory and fully working I/O. -/
def okWorld : World where
  initCwd := some "/proj"
  pwdEnv := none
  cwd := "/proj"
  packageRoot := "/pkg"
  fs := ⟨[], ["/proj"]⟩
  srcTree := fun _ => [("x.md", "content")]
  copyFails := fun _ => false
  writeFails := fun _ => false
  readFails := fun _ => false

/-- Like `okWorld`, but the target directory does not exist yet. -/
def emptyWorld : World :=
  { okWorld with fs := ⟨[], []⟩ }

/-- Like `okWorld`, but the copy of the JavaScript rules component
fails. -/
def jsFailWorld : World :=
  { okWorld with copyFails := fun s => s == "/pkg/context/rules/javascript" }

/-- Like `okWorld`, with a pre-existing markerless `.gitignore` whose
rewrite fails. -/
def gitWriteFailWorld : World :=
  { okWorld with
      fs := ⟨[("/proj/.gitignore", "node_modules\n")], ["/proj"]⟩,
      writeFails := fun p => p == "/proj/.gitignore" }

/-- Like `okWorld`, with a pre-existing `.gitignore` lacking the marker. -/
def gitWorld : World :=
  { okWorld with fs := ⟨[("/proj/.gitignore", "node_modules\n")], ["/proj"]⟩ }

/-- Like `okWorld`, with a `.gitignore` mentioning `.naichii-agent` only
inside an unrelated comment (no actual ignore entry). -/
def gitMarkerWorld : World :=
  { okWorld with
      fs := ⟨[("/proj/.gitignore", "# see docs/.naichii-agent-notes.md\nnode_modules\n")],
             ["/proj"]⟩ }

/-! ### Helper lemmas: the substring test agrees with list containment -/

lemma startsWithL_iff (p s : List Char) : startsWithL p s = true ↔ p <+: s := by
  induction p generalizing s with
  | nil => simp [startsWithL]
  | cons a ps ih =>
    cases s with
    | nil => simp [startsWithL]
    | cons c cs =>
      simp only [startsWithL, Bool.and_eq_true, decide_eq_true_eq, ih,
        List.cons_prefix_cons]

lemma containsSub_iff (p s : List Char) : containsSub p s = true ↔ p <:+: s := by
  induction s with
  | nil =>
    simp only [containsSub, startsWithL_iff]
    constructor
    · intro h
      exact h.isInfix
    · intro h
      obtain ⟨s, t, hst⟩ := h
      rcases List.append_eq_nil.mp hst with ⟨hst1, ht⟩
      rcases List.append_eq_nil.mp hst1 with ⟨hs, hp⟩
      simp [hp]
  | cons c cs ih =>
    simp only [containsSub, Bool.or_eq_true, startsWithL_iff, ih]
    rw [List.infix_cons_iff]

lemma containsMarker_iff (g : String) :
    containsMarker g = true ↔ frameworkDirName.data <:+: g.data := by
  simpa [containsMarker] using containsSub_iff frameworkDirName.data g.data

/-! ### Helper lemmas: filesystem operations -/

lemma lookupFile_setFile (fs : FS) (k c p : String) :
    lookupFile (setFile fs k c) p = if p = k then some c else lookupFile fs p := by
  simp only [lookupFile, setFile, List.find?_cons]
  by_cases h : p = k
  · subst h
    simp
  · simp [h, Ne.symm h]

lemma isDir_setFile (fs : FS) (k c q : String) :
    (setFile fs k c).isDir q = fs.isDir q := rfl

lemma dirs_setFile (fs : FS) (k c : String) :
    (setFile fs k c).dirs = fs.dirs := rfl

lemma files_ensureDir (fs : FS) (p : String) :
    (ensureDir fs p).files = fs.files := rfl

lemma lookupFile_ensureDir (fs : FS) (p q : String) :
    lookupFile (ensureDir fs p) q = lookupFile fs q := rfl

lemma isDir_ensureDir (fs : FS) (p q : String) :
    (ensureDir fs p).isDir q = (coveredBy q p || fs.isDir q) := by
  simp only [FS.isDir, ensureDir]
  by_cases h : fs.dirs.contains p
  · simp only [h, if_true]
    cases hc : coveredBy q p with
    | false => simp
    | true =>
      have hmem : p ∈ fs.dirs := by
        simpa using h
      simp only [Bool.true_or, List.any_eq_true]
      exact ⟨p, hmem, hc⟩
  · have hm : p ∉ fs.dirs := by
      simpa using h
    simp [hm, List.any_cons]

/-! ### Helper lemmas: sequences of file writes -/

lemma overrList_nil (p : String) (v : Option String) : overrList [] p v = v := rfl

lemma overrList_append (a b : List (String × String)) (p : String) (v : Option String) :
    overrList (a ++ b) p v = overrList b p (overrList a p v) := by
  simp only [overrList, List.reverse_append, List.find?_append]
  cases hb : b.reverse.find? (fun e => e.1 = p) <;>
    cases ha : a.reverse.find? (fun e => e.1 = p) <;> simp [Option.or]

lemma overrList_single (e : String × String) (p : String) (v : Option String) :
    overrList [e] p v = if p = e.1 then some e.2 else v := by
  by_cases hp : p = e.1
  · subst hp
    simp [overrList, List.find?_cons]
  · simp [overrList, List.find?_cons, hp, Ne.symm hp]

lemma overrList_cons (e : String × String) (ws : List (String × String))
    (p : String) (v : Option String) :
    overrList (e :: ws) p v
      = overrList ws p (if p = e.1 then some e.2 else v) := by
  rw [show e :: ws = [e] ++ ws from rfl, overrList_append, overrList_single]

lemma overrList_idem (ws : List (String × String)) (p : String) (v : Option String) :
    overrList ws p (overrList ws p v) = overrList ws p v := by
  simp only [overrList]
  cases h : ws.reverse.find? (fun e => e.1 = p) <;> simp [h]

lemma overrList_of_not_mem (ws : List (String × String)) (p : String) (v : Option String)
    (h : ∀ e ∈ ws, e.1 ≠ p) : overrList ws p v = v := by
  simp only [overrList]
  have hf : ws.reverse.find? (fun e => e.1 = p) = none := by
    rw [List.find?_eq_none]
    intro e he
    simpa using h e (List.mem_reverse.mp he)
  rw [hf]

lemma lookupFile_copyTree (es : List (String × String)) (dest : String) (fs : FS) (p : String) :
    lookupFile (copyTree es dest fs) p
      = overrList (es.map (fun e => (pjoin dest e.1, e.2))) p (lookupFile fs p) := by
  induction es generalizing fs with
  | nil => simp [copyTree, overrList_nil]
  | cons e es ih =>
    simp only [copyTree, List.foldl_cons, List.map_cons]
    rw [show (es.foldl (fun a e => setFile a (pjoin dest e.1) e.2)
        (setFile fs (pjoin dest e.1) e.2)) = copyTree es dest (setFile fs (pjoin dest e.1) e.2)
      from rfl]
    rw [ih, overrList_cons, lookupFile_setFile]

lemma dirs_copyTree (es : List (String × String)) (dest : String) (fs : FS) :
    (copyTree es dest fs).dirs = fs.dirs := by
  induction es generalizing fs with
  | nil => rfl
  | cons e es ih =>
    simp only [copyTree, List.foldl_cons]
    exact ih (setFile fs (pjoin dest e.1) e.2)

lemma isDir_copyTree (es : List (String × String)) (dest : String) (fs : FS) (q : String) :
    (copyTree es dest fs).isDir q = fs.isDir q := by
  simp [FS.isDir, dirs_copyTree]

/-! ### Helper lemmas: `copyDirectory` and the component fold -/

lemma copyDirectory_snd (w : World) (fs : FS) (s d : String) :
    (copyDirectory w fs s d).2 = !w.copyFails s := by
  simp only [copyDirectory]
  cases h : w.copyFails s <;> simp [h]

lemma lookupFile_copyDirectory (w : World) (fs : FS) (s d p : String) :
    lookupFile (copyDirectory w fs s d).1 p
      = overrList (if w.copyFails s then []
          else (w.srcTree s).map (fun e => (pjoin d e.1, e.2))) p (lookupFile fs p) := by
  simp only [copyDirectory]
  cases h : w.copyFails s with
  | true => simp [overrList_nil, lookupFile_ensureDir]
  | false => simp [lookupFile_copyTree, lookupFile_ensureDir]

lemma isDir_copyDirectory (w : World) (fs : FS) (s d q : String) :
    (copyDirectory w fs s d).1.isDir q = (coveredBy q d || fs.isDir q) := by
  simp only [copyDirectory]
  cases h : w.copyFails s with
  | true => simp [isDir_ensureDir]
  | false => simp [isDir_copyTree, isDir_ensureDir]

lemma installComponents_eq_foldl (w : World) (installDir : String)
    (components : List String) (acc : FS × List (String × Bool)) :
    installComponents w installDir components acc
      = catalog.foldl (icStep w installDir components) acc := rfl

lemma icFold_report (w : World) (installDir : String) (components : List String) :
    ∀ (cs : List Component) (acc : FS × List (String × Bool)),
    (cs.foldl (icStep w installDir components) acc).2
      = acc.2 ++ reportOf w components cs := by
  intro cs
  induction cs with
  | nil => intro acc; simp [reportOf]
  | cons c cs ih =>
    intro acc
    simp only [List.foldl_cons, ih, reportOf, List.filter_cons]
    by_cases h : c.id ∈ components
    · simp [icStep, h, copyDirectory_snd, reportOf, List.append_assoc]
    · simp [icStep, h, reportOf]

lemma icFold_lookup (w : World) (installDir : String) (components : List String) :
    ∀ (cs : List Component) (acc : FS × List (String × Bool)) (p : String),
    lookupFile (cs.foldl (icStep w installDir components) acc).1 p
      = overrList (writesOf w installDir components cs) p (lookupFile acc.1 p) := by
  intro cs
  induction cs with
  | nil => intro acc p; simp [writesOf, overrList_nil]
  | cons c cs ih =>
    intro acc p
    simp only [List.foldl_cons, ih, writesOf, List.map_cons, List.flatten_cons,
      overrList_append]
    congr 1
    by_cases h : c.id ∈ components
    · simp [icStep, h, lookupFile_copyDirectory, componentWrites]
    · simp [icStep, h, componentWrites, overrList_nil]

lemma icFold_isDir (w : World) (installDir : String) (components : List String) :
    ∀ (cs : List Component) (acc : FS × List (String × Bool)) (q : String),
    (cs.foldl (icStep w installDir components) acc).1.isDir q
      = (cs.any (fun c => components.contains c.id && coveredBy q (destPath installDir c))
          || acc.1.isDir q) := by
  intro cs
  induction cs with
  | nil => intro acc q; simp
  | cons c cs ih =>
    intro acc q
    simp only [List.foldl_cons, ih, List.any_cons]
    by_cases h : c.id ∈ components
    · simp [icStep, h, isDir_copyDirectory, Bool.or_assoc, Bool.or_comm, Bool.or_left_comm]
    · simp [icStep, h]

/-! ### Helper lemmas: path disjointness -/

lemma slash_data : ("/" : String).data = ['/'] := rfl

lemma pjoin_data (a b : String) : (pjoin a b).data = a.data ++ '/' :: b.data := by
  simp [pjoin, String.data_append, slash_data]

lemma pjoin_length (a b : String) : (pjoin a b).length = a.length + b.length + 1 := by
  simp only [pjoin, String.length_append]
  have h1 : ("/" : String).length = 1 := rfl
  omega

lemma ne_of_length {a b : String} (h : a.length ≠ b.length) : a ≠ b :=
  fun he => h (congrArg String.length he)

/-- Equal appends agree at any index below both left parts. -/
lemma append_chr {a x b y : List Char} (h : a ++ x = b ++ y) (i : Nat)
    (ha : i < a.length) (hb : i < b.length) : a[i]? = b[i]? := by
  have h1 : (a ++ x)[i]? = a[i]? := List.getElem?_append_left ha
  have h2 : (b ++ y)[i]? = b[i]? := List.getElem?_append_left hb
  rw [← h1, ← h2, h]

lemma copyKey_ne_gitignorePath (I s rel : String) :
    pjoin (pjoin (pjoin I frameworkDirName) s) rel ≠ pjoin I ".gitignore" := by
  intro h
  have hd := congrArg String.data h
  simp only [pjoin_data, List.append_assoc, List.cons_append] at hd
  have h2 := List.append_cancel_left hd
  simp [frameworkDirName] at h2

lemma destPath_ne_gitignorePath (I : String) (c : Component) :
    destPath I c ≠ pjoin I ".gitignore" := by
  intro h
  have hd := congrArg String.data h
  simp only [destPath, pjoin_data, List.append_assoc, List.cons_append] at hd
  have h2 := List.append_cancel_left hd
  simp [frameworkDirName] at h2

lemma readmePath_ne_gitignorePath (I : String) :
    pjoin (pjoin I frameworkDirName) "README.md" ≠ pjoin I ".gitignore" := by
  intro h
  have hd := congrArg String.data h
  simp only [pjoin_data, List.append_assoc, List.cons_append] at hd
  have h2 := List.append_cancel_left hd
  simp [frameworkDirName] at h2

lemma copyKey_ne_readmePath (I : String) (c : Component) (hc : c ∈ catalog) (rel : String) :
    pjoin (destPath I c) rel ≠ pjoin (pjoin I frameworkDirName) "README.md" := by
  fin_cases hc <;>
  · intro h
    have hd := congrArg String.data h
    simp only [destPath, pjoin_data, List.append_assoc, List.cons_append] at hd
    have h2 := List.append_cancel_left hd
    simp [frameworkDirName] at h2

/-- A path strictly below `I` never equals `I` (it is longer). -/
lemma coveredBy_pjoin_self (I x : String) : coveredBy (pjoin I x) I = false := by
  simp only [coveredBy, Bool.or_eq_false_iff]
  constructor
  · have hne : I ≠ pjoin I x := by
      apply ne_of_length
      rw [pjoin_length]
      omega
    simp [hne]
  · by_contra hp
    rw [Bool.not_eq_false] at hp
    have hpre : (pjoin I x ++ "/").data <+: I.data :=
      List.isPrefixOf_iff_prefix.mp hp
    have hlen := hpre.length_le
    have h1 : (pjoin I x ++ "/").data.length = (pjoin I x ++ "/").length := rfl
    have h2 : I.data.length = I.length := rfl
    rw [h1, h2, String.length_append, pjoin_length] at hlen
    have h3 : ("/" : String).length = 1 := rfl
    omega

lemma coveredBy_gitignorePath_destPath (I : String) (c : Component) :
    coveredBy (pjoin I ".gitignore") (destPath I c) = false := by
  simp only [coveredBy, Bool.or_eq_false_iff]
  constructor
  · simp [destPath_ne_gitignorePath I c]
  · by_contra hp
    rw [Bool.not_eq_false] at hp
    have hpre : (pjoin I ".gitignore" ++ "/").data <+: (destPath I c).data :=
      List.isPrefixOf_iff_prefix.mp hp
    obtain ⟨t, ht⟩ := hpre
    simp only [destPath, pjoin_data, String.data_append, slash_data,
      List.append_assoc, List.cons_append] at ht
    have h2 := List.append_cancel_left ht
    simp [frameworkDirName] at h2

/-! ### Helper lemmas: the run up to the finishing phase -/

lemma installFramework_unfold (w : World) (u : UserInput) (d : String) (comps : List String)
    (hsel : checkboxPrompt u.submissions = some comps)
    (hreach : pathExists w.fs (resolvedDir w d) = true ∨ u.createDirAnswer = true) :
    installFramework w u d
      = finishInstall w (resolvedDir w d) comps
          (installComponents w (resolvedDir w d) comps (installBase w d, [])).1
          (installComponents w (resolvedDir w d) comps (installBase w d, [])).2 := by
  rw [installFramework]
  rw [show resolveInstallDir w.initCwd w.pwdEnv w.cwd d = resolvedDir w d from rfl]
  cases hex : pathExists w.fs (resolvedDir w d) with
  | true => simp [promptAndInstall, hsel, installBase, hex]
  | false =>
    rcases hreach with h | h
    · rw [hex] at h
      exact absurd h (by decide)
    · simp [h, promptAndInstall, hsel, installBase, hex]

lemma writesOf_key_shape (w : World) (I : String) (comps : List String) (cs : List Component) :
    ∀ e ∈ writesOf w I comps cs, ∃ c rel, c ∈ cs ∧ e.1 = pjoin (destPath I c) rel := by
  intro e he
  simp only [writesOf, List.mem_flatten, List.mem_map] at he
  obtain ⟨l, ⟨c, hc, hl⟩, hel⟩ := he
  subst hl
  simp only [componentWrites] at hel
  by_cases h1 : comps.contains c.id
  · rw [if_pos h1] at hel
    by_cases h2 : w.copyFails (srcPath w c)
    · rw [if_pos h2] at hel
      exact absurd hel (List.not_mem_nil e)
    · rw [if_neg h2] at hel
      obtain ⟨e0, _, he0⟩ := List.mem_map.mp hel
      exact ⟨c, e0.1, hc, by rw [← he0]⟩
  · rw [if_neg h1] at hel
    exact absurd hel (List.not_mem_nil e)

/-- The copy phase never touches the `.gitignore` path. -/
lemma lookup_gitignore_after_copies (w : World) (I : String) (comps : List String) (fs : FS)
    (rep : List (String × Bool)) :
    lookupFile (installComponents w I comps (fs, rep)).1 (pjoin I ".gitignore")
      = lookupFile fs (pjoin I ".gitignore") := by
  rw [installComponents_eq_foldl, icFold_lookup]
  apply overrList_of_not_mem
  intro e he
  obtain ⟨c, rel, _, hkey⟩ := writesOf_key_shape w I comps catalog e he
  rw [hkey]
  exact copyKey_ne_gitignorePath I c.destRel rel

/-- The copy phase never makes the `.gitignore` path a directory. -/
lemma isDir_gitignore_after_copies (w : World) (I : String) (comps : List String) (fs : FS)
    (rep : List (String × Bool)) :
    (installComponents w I comps (fs, rep)).1.isDir (pjoin I ".gitignore")
      = fs.isDir (pjoin I ".gitignore") := by
  rw [installComponents_eq_foldl, icFold_isDir]
  have h : (catalog.any fun c =>
      comps.contains c.id && coveredBy (pjoin I ".gitignore") (destPath I c)) = false := by
    rw [List.any_eq_false]
    intro c _
    simp [coveredBy_gitignorePath_destPath I c]
  rw [h, Bool.false_or]

lemma report_after_copies (w : World) (I : String) (comps : List String) (fs : FS) :
    (installComponents w I comps (fs, [])).2 = reportOf w comps catalog := by
  rw [installComponents_eq_foldl, icFold_report]
  simp

/-- Creating the target directory affects no path outside its chain. -/
lemma isDir_installBase_at (w : World) (d : String) (q : String)
    (hq : coveredBy q (resolvedDir w d) = false) :
    (installBase w d).isDir q = w.fs.isDir q := by
  rw [installBase]
  by_cases hex : pathExists w.fs (resolvedDir w d) <;>
    simp [hex, isDir_ensureDir, hq]

/-- Creating the target directory does not affect the `.gitignore` path. -/
lemma isDir_installBase_gitignore (w : World) (d : String) :
    (installBase w d).isDir (pjoin (resolvedDir w d) ".gitignore")
      = w.fs.isDir (pjoin (resolvedDir w d) ".gitignore") := by
  rw [installBase]
  by_cases hex : pathExists w.fs (resolvedDir w d)
  · simp [hex]
  · simp [hex, isDir_ensureDir, coveredBy_pjoin_self]

lemma lookup_installBase (w : World) (d : String) (p : String) :
    lookupFile (installBase w d) p = lookupFile w.fs p := by
  rw [installBase]
  by_cases hex : pathExists w.fs (resolvedDir w d) <;> simp [hex, lookupFile_ensureDir]

/-! ### Helper lemmas: the finishing phase, case by case -/

lemma finishInstall_readme_fails (w : World) (I : String) (comps : List String) (fs : FS)
    (rep : List (String × Bool))
    (hw : w.writeFails (pjoin (pjoin I frameworkDirName) "README.md") = true) :
    finishInstall w I comps fs rep = ⟨fs, RunOutcome.errored "README write failed", rep⟩ := by
  simp [finishInstall, hw]

lemma finishInstall_no_gitignore (w : World) (I : String) (comps : List String) (fs : FS)
    (rep : List (String × Bool))
    (hw : w.writeFails (pjoin (pjoin I frameworkDirName) "README.md") = false)
    (hpe : pathExists (setFile fs (pjoin (pjoin I frameworkDirName) "README.md")
        (readmeContent comps)) (pjoin I ".gitignore") = false) :
    finishInstall w I comps fs rep
      = ⟨setFile fs (pjoin (pjoin I frameworkDirName) "README.md") (readmeContent comps),
          RunOutcome.completed, rep⟩ := by
  simp [finishInstall, hw, hpe]

lemma finishInstall_marker_present (w : World) (I : String) (comps : List String) (fs : FS)
    (rep : List (String × Bool)) (g : String)
    (hw : w.writeFails (pjoin (pjoin I frameworkDirName) "README.md") = false)
    (hl : lookupFile (setFile fs (pjoin (pjoin I frameworkDirName) "README.md")
        (readmeContent comps)) (pjoin I ".gitignore") = some g)
    (hm : containsMarker g = true)
    (hrg : w.readFails (pjoin I ".gitignore") = false) :
    finishInstall w I comps fs rep
      = ⟨setFile fs (pjoin (pjoin I frameworkDirName) "README.md") (readmeContent comps),
          RunOutcome.completed, rep⟩ := by
  have hpe : pathExists (setFile fs (pjoin (pjoin I frameworkDirName) "README.md")
      (readmeContent comps)) (pjoin I ".gitignore") = true := by
    rw [pathExists, hl]
    simp
  simp [finishInstall, hw, hpe, hrg, hl, hm]

lemma finishInstall_write_block (w : World) (I : String) (comps : List String) (fs : FS)
    (rep : List (String × Bool)) (g : String)
    (hw : w.writeFails (pjoin (pjoin I frameworkDirName) "README.md") = false)
    (hl : lookupFile (setFile fs (pjoin (pjoin I frameworkDirName) "README.md")
        (readmeContent comps)) (pjoin I ".gitignore") = some g)
    (hm : containsMarker g = false)
    (hrg : w.readFails (pjoin I ".gitignore") = false)
    (hwg : w.writeFails (pjoin I ".gitignore") = false) :
    finishInstall w I comps fs rep
      = ⟨setFile (setFile fs (pjoin (pjoin I frameworkDirName) "README.md")
            (readmeContent comps)) (pjoin I ".gitignore") (g ++ gitignoreBlock),
          RunOutcome.completed, rep⟩ := by
  have hpe : pathExists (setFile fs (pjoin (pjoin I frameworkDirName) "README.md")
      (readmeContent comps)) (pjoin I ".gitignore") = true := by
    rw [pathExists, hl]
    simp
  simp [finishInstall, hw, hpe, hrg, hl, hm, hwg]

/-! ### C6 — target directory resolution -/

/-- C6: an absolute `--directory` is used verbatim; a relative one is
resolved against the invocation directory recovered from `INIT_CWD`,
falling back through `PWD` to the process cwd, never against the
installer's own package directory; in particular `--directory ../sibling`
invoked from `/home/user/project` resolves to `/home/user/sibling`. -/
theorem c6_target_directory_resolution :
    (∀ (i pw : Option String) (c d : String),
      isAbsolute d = true → resolveInstallDir i pw c d = d) ∧
    (∀ (pw : Option String) (c : String),
      resolveInstallDir (some "/home/user/project") pw c "../sibling" = "/home/user/sibling") ∧
    (∀ (c d : String),
      resolveInstallDir none none c d = if isAbsolute d then d else resolvePath c d) ∧
    (∀ (w : World) (pr d : String),
      resolvedDir { w with packageRoot := pr } d = resolvedDir w d) := by
  refine ⟨?_, ?_, ?_, ?_⟩
  · intro i pw c d h
    simp [resolveInstallDir, h]
  · intro pw c
    show (if isAbsolute "../sibling" then "../sibling"
      else resolvePath "/home/user/project" "../sibling") = "/home/user/sibling"
    decide
  · intro c d
    rfl
  · intro w pr d
    rfl

theorem c6_witness :
    isAbsolute "/abs/target" = true ∧
    resolveInstallDir (some "/x") none "/y" "/abs/target" = "/abs/target" ∧
    resolveInstallDir (some "/home/user/project") none "/y" "../sibling" = "/home/user/sibling" :=
  ⟨by decide,
   c6_target_directory_resolution.1 (some "/x") none "/y" "/abs/target" (by decide),
   c6_target_directory_resolution.2.1 none "/y"⟩

/-! ### C4 — declined directory creation -/

/-- C4 counterexample: with the resolved target directory missing and the
confirmation declined, the run is cancelled with no filesystem change, but
the process exits with code `0`, not the non-zero exit the claim
states. -/
theorem c4_counterexample :
    (installFramework emptyWorld ⟨false, [["javascript"]]⟩ ".").outcome = RunOutcome.cancelled ∧
    (installFramework emptyWorld ⟨false, [["javascript"]]⟩ ".").fs = emptyWorld.fs ∧
    exitCode (installFramework emptyWorld ⟨false, [["javascript"]]⟩ ".").outcome = some 0 :=
  ⟨rfl, rfl, rfl⟩

/-- C4 amended: if the resolved target directory does not exist and the
creation confirmation is declined, the whole operation aborts with no
filesystem side effects — but the process returns normally and exits with
code `0` (the cancellation is not reflected in the exit code). -/
theorem c4_declined_creation_aborts (w : World) (u : UserInput) (d : String)
    (hex : pathExists w.fs (resolvedDir w d) = false)
    (hans : u.createDirAnswer = false) :
    installFramework w u d = ⟨w.fs, RunOutcome.cancelled, []⟩ ∧
    exitCode (installFramework w u d).outcome = some 0 := by
  have hrun : installFramework w u d = ⟨w.fs, RunOutcome.cancelled, []⟩ := by
    rw [installFramework]
    rw [show resolveInstallDir w.initCwd w.pwdEnv w.cwd d = resolvedDir w d from rfl]
    rw [hex, hans]
    simp
  exact ⟨hrun, by rw [hrun]; rfl⟩

theorem c4_declined_creation_witness :
    pathExists emptyWorld.fs (resolvedDir emptyWorld ".") = false ∧
    installFramework emptyWorld ⟨false, [["sql"]]⟩ "." = ⟨emptyWorld.fs, RunOutcome.cancelled, []⟩ :=
  ⟨rfl, (c4_declined_creation_aborts emptyWorld ⟨false, [["sql"]]⟩ "." rfl rfl).1⟩

/-! ### C10 — directory creation precedes the copy and is not rolled back -/

/-- C10: `copyDirectory` ensures the destination directory (with its
parent chain, `mkdir -p` style) before attempting the copy, so a failed
component still leaves the freshly created directories behind: the copy is
reported failed, yet the destination directory and every parent of it
exist, while no file was written. -/
theorem c10_failed_copy_leaves_directories (w : World) (fs : FS) (s d : String)
    (hfail : w.copyFails s = true) :
    (copyDirectory w fs s d).2 = false ∧
    (copyDirectory w fs s d).1.isDir d = true ∧
    (∀ q, (q ++ "/").data.isPrefixOf d.data = true → (copyDirectory w fs s d).1.isDir q = true) ∧
    (copyDirectory w fs s d).1.files = fs.files := by
  have hcd : copyDirectory w fs s d = (ensureDir fs d, false) := by
    simp [copyDirectory, hfail]
  refine ⟨by rw [hcd], ?_, ?_, by rw [hcd]; exact files_ensureDir fs d⟩
  · rw [hcd, isDir_ensureDir]
    simp [coveredBy]
  · intro q hq
    rw [hcd, isDir_ensureDir]
    have h1 : (q ++ "/").data <+: d.data := List.isPrefixOf_iff_prefix.mp hq
    have h2 : q.data ++ ['/'] <+: d.data := by
      simpa [String.data_append, slash_data] using h1
    simp [coveredBy, h2]

theorem c10_witness :
    okWorld.copyFails "/pkg/context/rules/javascript" = false ∧
    ({ okWorld with copyFails := fun _ => true } : World).copyFails "/gone" = true ∧
    (copyDirectory { okWorld with copyFails := fun _ => true } okWorld.fs
        "/gone" "/proj/.naichii-agent/rules/javascript").2 = false ∧
    (copyDirectory { okWorld with copyFails := fun _ => true } okWorld.fs
        "/gone" "/proj/.naichii-agent/rules/javascript").1.isDir "/proj/.naichii-agent" = true := by
  refine ⟨rfl, rfl, ?_, ?_⟩
  · exact (c10_failed_copy_leaves_directories _ okWorld.fs "/gone"
      "/proj/.naichii-agent/rules/javascript" rfl).1
  · exact (c10_failed_copy_leaves_directories _ okWorld.fs "/gone"
      "/proj/.naichii-agent/rules/javascript" rfl).2.2.1 "/proj/.naichii-agent" (by decide)

/-! ### C5 — unknown component ids -/

lemma contains_filter_of_pred (l : List String) (f : String → Bool) (x : String)
    (hf : f x = true) : (l.filter f).contains x = l.contains x := by
  by_cases h : x ∈ l
  · simp [List.mem_filter, h, hf]
  · have h2 : x ∉ l.filter f := fun hx => h (List.mem_filter.mp hx).1
    simp [h, h2]

lemma icFold_congr (w : World) (installDir : String) (comps1 comps2 : List String)
    (cs : List Component)
    (h : ∀ c ∈ cs, comps1.contains c.id = comps2.contains c.id) :
    ∀ acc, cs.foldl (icStep w installDir comps1) acc
      = cs.foldl (icStep w installDir comps2) acc := by
  induction cs with
  | nil => intro acc; rfl
  | cons c cs ih =>
    intro acc
    simp only [List.foldl_cons]
    rw [show icStep w installDir comps1 acc c = icStep w installDir comps2 acc c from by
      simp only [icStep, h c (List.mem_cons_self c cs)]]
    exact ih (fun c2 hc2 => h c2 (List.mem_cons_of_mem c hc2)) _

lemma readmeContent_congr (comps1 comps2 : List String)
    (h : ∀ i, catalog.any (fun c => c.id = i) = true →
      comps1.contains i = comps2.contains i) :
    readmeContent comps1 = readmeContent comps2 := by
  have h1 := h "javascript" (by decide)
  have h2 := h "sql" (by decide)
  have h3 := h "js-memory" (by decide)
  have h4 := h "sql-memory" (by decide)
  simp only [readmeContent, h1, h2, h3, h4]

lemma finishInstall_congr (w : World) (installDir : String) (comps1 comps2 : List String)
    (hr : readmeContent comps1 = readmeContent comps2) (fs : FS) (rep : List (String × Bool)) :
    finishInstall w installDir comps1 fs rep = finishInstall w installDir comps2 fs rep := by
  simp only [finishInstall, hr]

/-- C5 counterexample: a selection containing the unknown id `"bogus"`
reaches the install step and the run completes with exit code `0`; the
unknown id is silently skipped (it triggers no copy and no error), not
aborted on. -/
theorem c5_counterexample :
    (installFramework okWorld ⟨true, [["javascript", "bogus"]]⟩ ".").outcome
      = RunOutcome.completed ∧
    exitCode (installFramework okWorld ⟨true, [["javascript", "bogus"]]⟩ ".").outcome = some 0 ∧
    (installFramework okWorld ⟨true, [["javascript", "bogus"]]⟩ ".").report
      = [("JavaScript Rules", true)] :=
  ⟨rfl, rfl, rfl⟩

/-- C5 amended: the install step has no component catalog check; an id
not among the four catalog ids is silently ignored — removing all unknown
ids from the selection changes neither the copy phase (filesystem and
report) nor the finishing phase (README content and `.gitignore`
handling).  No loud failure of any kind is raised for unknown ids. -/
theorem c5_unknown_ids_silently_ignored (w : World) (installDir : String)
    (components : List String) (fs : FS) (rep : List (String × Bool)) :
    installComponents w installDir components (fs, rep)
      = installComponents w installDir
          (components.filter (fun i => catalog.any (fun c => c.id = i))) (fs, rep) ∧
    ∀ (fs1 : FS) (rep1 : List (String × Bool)),
      finishInstall w installDir components fs1 rep1
        = finishInstall w installDir
            (components.filter (fun i => catalog.any (fun c => c.id = i))) fs1 rep1 := by
  have hc : ∀ c ∈ catalog, components.contains c.id
      = (components.filter (fun i => catalog.any (fun c => c.id = i))).contains c.id := by
    intro c hcc
    refine (contains_filter_of_pred components _ c.id ?_).symm
    exact List.any_eq_true.mpr ⟨c, hcc, by simp⟩
  refine ⟨?_, ?_⟩
  · rw [installComponents_eq_foldl, installComponents_eq_foldl]
    exact icFold_congr w installDir _ _ catalog hc (fs, rep)
  · intro fs1 rep1
    apply finishInstall_congr
    apply readmeContent_congr
    intro i hi
    exact (contains_filter_of_pred components _ i hi).symm

/-! ### C7 — empty selection is rejected -/

/-- C7: submitting zero components is rejected by the prompt validation
(the library re-prompts), so the install flow never proceeds with an empty
selection: when every submission is empty the run stays pending — it never
completes, writes no file, and does not create the framework directory. -/
theorem c7_zero_selection_never_proceeds (w : World) (u : UserInput) (d : String)
    (hreach : pathExists w.fs (resolvedDir w d) = true ∨ u.createDirAnswer = true)
    (hempty : ∀ s ∈ u.submissions, s = ([] : List String)) :
    componentsValidate [] = ValidateOutcome.invalid "Please select at least one component" ∧
    (∀ (subs : List (List String)) (comps : List String),
        checkboxPrompt subs = some comps → comps ≠ []) ∧
    (installFramework w u d).outcome = RunOutcome.pending ∧
    (installFramework w u d).outcome ≠ RunOutcome.completed ∧
    (∀ p, lookupFile (installFramework w u d).fs p = lookupFile w.fs p) ∧
    (installFramework w u d).fs.isDir (pjoin (resolvedDir w d) frameworkDirName)
      = w.fs.isDir (pjoin (resolvedDir w d) frameworkDirName) := by
  have hprompt : checkboxPrompt u.submissions = none := by
    rw [checkboxPrompt, List.find?_eq_none]
    intro s hs
    rw [hempty s hs]
    decide
  have hrun : installFramework w u d
      = ⟨if pathExists w.fs (resolvedDir w d) then w.fs
          else ensureDir w.fs (resolvedDir w d), RunOutcome.pending, []⟩ := by
    rw [installFramework]
    rw [show resolveInstallDir w.initCwd w.pwdEnv w.cwd d = resolvedDir w d from rfl]
    cases hex : pathExists w.fs (resolvedDir w d) with
    | true => simp [promptAndInstall, hprompt]
    | false =>
      rcases hreach with h | h
      · rw [hex] at h
        exact absurd h (by decide)
      · simp [h, promptAndInstall, hprompt]
  refine ⟨rfl, ?_, ?_, ?_, ?_, ?_⟩
  · intro subs comps hfind hnil
    subst hnil
    exact absurd (List.find?_some hfind) (by decide)
  · rw [hrun]
  · rw [hrun]
    simp
  · intro p
    rw [hrun]
    by_cases hex : pathExists w.fs (resolvedDir w d) <;> simp [hex, lookupFile_ensureDir]
  · rw [hrun]
    by_cases hex : pathExists w.fs (resolvedDir w d)
    · simp [hex]
    · simp [hex, isDir_ensureDir, coveredBy_pjoin_self]

theorem c7_zero_selection_witness :
    pathExists okWorld.fs (resolvedDir okWorld ".") = true ∧
    (installFramework okWorld ⟨true, [[], []]⟩ ".").outcome = RunOutcome.pending :=
  ⟨rfl,
   (c7_zero_selection_never_proceeds okWorld ⟨true, [[], []]⟩ "." (Or.inl rfl)
     (by decide)).2.2.1⟩

/-! ### C8 — `.gitignore` patching is non-destructive -/

/-- C8: in a run that reaches the install phase with working I/O, a
pre-existing `.gitignore` without the marker ends up byte-identical to its
old content with only the commented suggestion block appended; one that
already contains the marker is left byte-identical; and with no
`.gitignore` at the target the step is skipped silently — the run still
completes. -/
theorem c8_gitignore_nondestructive (w : World) (u : UserInput) (d : String)
    (comps : List String)
    (hsel : checkboxPrompt u.submissions = some comps)
    (hreach : pathExists w.fs (resolvedDir w d) = true ∨ u.createDirAnswer = true)
    (hw : w.writeFails (pjoin (pjoin (resolvedDir w d) frameworkDirName) "README.md") = false)
    (hwg : w.writeFails (pjoin (resolvedDir w d) ".gitignore") = false)
    (hrg : w.readFails (pjoin (resolvedDir w d) ".gitignore") = false) :
    (∀ g, lookupFile w.fs (pjoin (resolvedDir w d) ".gitignore") = some g →
      containsMarker g = false →
      lookupFile (installFramework w u d).fs (pjoin (resolvedDir w d) ".gitignore")
          = some (g ++ gitignoreBlock) ∧
      (installFramework w u d).outcome = RunOutcome.completed) ∧
    (∀ g, lookupFile w.fs (pjoin (resolvedDir w d) ".gitignore") = some g →
      containsMarker g = true →
      lookupFile (installFramework w u d).fs (pjoin (resolvedDir w d) ".gitignore") = some g ∧
      (installFramework w u d).outcome = RunOutcome.completed) ∧
    (pathExists w.fs (pjoin (resolvedDir w d) ".gitignore") = false →
      lookupFile (installFramework w u d).fs (pjoin (resolvedDir w d) ".gitignore") = none ∧
      (installFramework w u d).outcome = RunOutcome.completed) := by
  have hrun := installFramework_unfold w u d comps hsel hreach
  have hgne : pjoin (resolvedDir w d) ".gitignore"
      ≠ pjoin (pjoin (resolvedDir w d) frameworkDirName) "README.md" :=
    fun h => readmePath_ne_gitignorePath (resolvedDir w d) h.symm
  have hlA : lookupFile
      (installComponents w (resolvedDir w d) comps (installBase w d, [])).1
      (pjoin (resolvedDir w d) ".gitignore")
      = lookupFile w.fs (pjoin (resolvedDir w d) ".gitignore") := by
    rw [lookup_gitignore_after_copies, lookup_installBase]
  have hdA : (installComponents w (resolvedDir w d) comps (installBase w d, [])).1.isDir
      (pjoin (resolvedDir w d) ".gitignore")
      = w.fs.isDir (pjoin (resolvedDir w d) ".gitignore") := by
    rw [isDir_gitignore_after_copies, isDir_installBase_gitignore]
  have hfs1l : lookupFile
      (setFile (installComponents w (resolvedDir w d) comps (installBase w d, [])).1
        (pjoin (pjoin (resolvedDir w d) frameworkDirName) "README.md") (readmeContent comps))
      (pjoin (resolvedDir w d) ".gitignore")
      = lookupFile w.fs (pjoin (resolvedDir w d) ".gitignore") := by
    rw [lookupFile_setFile, if_neg hgne, hlA]
  refine ⟨?_, ?_, ?_⟩
  · intro g hg hm
    rw [hrun, finishInstall_write_block w (resolvedDir w d) comps _ _ g hw
      (by rw [hfs1l, hg]) hm hrg hwg]
    constructor
    · rw [lookupFile_setFile]
      simp
    · rfl
  · intro g hg hm
    rw [hrun, finishInstall_marker_present w (resolvedDir w d) comps _ _ g hw
      (by rw [hfs1l, hg]) hm hrg]
    exact ⟨by rw [hfs1l, hg], rfl⟩
  · intro hne
    have hparts : w.fs.isDir (pjoin (resolvedDir w d) ".gitignore") = false ∧
        lookupFile w.fs (pjoin (resolvedDir w d) ".gitignore") = none := by
      rw [pathExists, Bool.or_eq_false_iff] at hne
      refine ⟨hne.1, ?_⟩
      rcases hlook : lookupFile w.fs (pjoin (resolvedDir w d) ".gitignore") with _ | g
      · rfl
      · rw [hlook] at hne
        exact absurd hne.2 (by simp)
    have hpe : pathExists
        (setFile (installComponents w (resolvedDir w d) comps (installBase w d, [])).1
          (pjoin (pjoin (resolvedDir w d) frameworkDirName) "README.md") (readmeContent comps))
        (pjoin (resolvedDir w d) ".gitignore") = false := by
      rw [pathExists, isDir_setFile, hdA, hfs1l, hparts.1, hparts.2]
      rfl
    rw [hrun, finishInstall_no_gitignore w (resolvedDir w d) comps _ _ hw hpe]
    exact ⟨by rw [hfs1l, hparts.2], rfl⟩

theorem c8_witness :
    lookupFile (installFramework gitWorld ⟨true, [["javascript"]]⟩ ".").fs
        (pjoin (resolvedDir gitWorld ".") ".gitignore")
      = some ("node_modules\n" ++ gitignoreBlock) ∧
    (installFramework gitWorld ⟨true, [["javascript"]]⟩ ".").outcome = RunOutcome.completed :=
  (c8_gitignore_nondestructive gitWorld ⟨true, [["javascript"]]⟩ "." ["javascript"]
    rfl (Or.inl rfl) rfl rfl rfl).1 "node_modules\n" rfl (by decide)

/-! ### Helper lemmas: README content and line membership -/

/-- However the finishing phase ends after a successful README write, the
README file holds the template generated from the requested selection. -/
lemma lookup_readme_after_finish (w : World) (I : String) (comps : List String) (fs : FS)
    (rep : List (String × Bool))
    (hw : w.writeFails (pjoin (pjoin I frameworkDirName) "README.md") = false) :
    lookupFile (finishInstall w I comps fs rep).fs
        (pjoin (pjoin I frameworkDirName) "README.md")
      = some (readmeContent comps) := by
  have hne : ¬ (pjoin (pjoin I frameworkDirName) "README.md" = pjoin I ".gitignore") :=
    readmePath_ne_gitignorePath I
  simp only [finishInstall, hw]
  rw [if_neg (show ¬(false = true) by simp)]
  split
  · split
    · simp [lookupFile_setFile]
    · split
      · simp [lookupFile_setFile]
      · split
        · simp [lookupFile_setFile]
        · split
          · simp [lookupFile_setFile]
          · simp [lookupFile_setFile, hne]
  · simp [lookupFile_setFile]

set_option maxRecDepth 40000 in
lemma readme_mentions_js (comps : List String) :
    jsRulesLine.data <:+: (readmeContent comps).data ↔ comps.contains "javascript" = true := by
  rw [← containsSub_iff]
  cases h1 : comps.contains "javascript" <;> cases h2 : comps.contains "sql" <;>
    cases h3 : comps.contains "js-memory" <;> cases h4 : comps.contains "sql-memory" <;>
    simp only [readmeContent, h1, h2, h3, h4, if_true, if_false] <;> decide

set_option maxRecDepth 40000 in
lemma readme_mentions_sql (comps : List String) :
    sqlRulesLine.data <:+: (readmeContent comps).data ↔ comps.contains "sql" = true := by
  rw [← containsSub_iff]
  cases h1 : comps.contains "javascript" <;> cases h2 : comps.contains "sql" <;>
    cases h3 : comps.contains "js-memory" <;> cases h4 : comps.contains "sql-memory" <;>
    simp only [readmeContent, h1, h2, h3, h4, if_true, if_false] <;> decide

set_option maxRecDepth 40000 in
lemma readme_mentions_jsMemory (comps : List String) :
    jsMemoryLine.data <:+: (readmeContent comps).data ↔ comps.contains "js-memory" = true := by
  rw [← containsSub_iff]
  cases h1 : comps.contains "javascript" <;> cases h2 : comps.contains "sql" <;>
    cases h3 : comps.contains "js-memory" <;> cases h4 : comps.contains "sql-memory" <;>
    simp only [readmeContent, h1, h2, h3, h4, if_true, if_false] <;> decide

set_option maxRecDepth 40000 in
lemma readme_mentions_sqlMemory (comps : List String) :
    sqlMemoryLine.data <:+: (readmeContent comps).data ↔ comps.contains "sql-memory" = true := by
  rw [← containsSub_iff]
  cases h1 : comps.contains "javascript" <;> cases h2 : comps.contains "sql" <;>
    cases h3 : comps.contains "js-memory" <;> cases h4 : comps.contains "sql-memory" <;>
    simp only [readmeContent, h1, h2, h3, h4, if_true, if_false] <;> decide

/-! ### C1 — what the README lists -/

set_option maxRecDepth 40000 in
/-- C1 counterexample: the JavaScript component copy fails (recorded as
failed in the report), yet the generated README still lists it — the
README reflects the requested selection, not the copy outcome. -/
theorem c1_counterexample :
    (installFramework jsFailWorld ⟨true, [["javascript"]]⟩ ".").report
      = [("JavaScript Rules", false)] ∧
    lookupFile (installFramework jsFailWorld ⟨true, [["javascript"]]⟩ ".").fs
        "/proj/.naichii-agent/README.md" = some (readmeContent ["javascript"]) ∧
    jsRulesLine.data <:+: (readmeContent ["javascript"]).data :=
  ⟨rfl, rfl, (readme_mentions_js ["javascript"]).mpr (by decide)⟩

/-- C1 amended: the README manifest lists exactly the *requested*
components, not the ones whose copy succeeded: its content is the
template generated from the selection alone, for every copy-failure
oracle, and a component line appears in it if and only if that component
was selected. -/
theorem c1_readme_lists_requested (w : World) (u : UserInput) (d : String)
    (comps : List String)
    (hsel : checkboxPrompt u.submissions = some comps)
    (hreach : pathExists w.fs (resolvedDir w d) = true ∨ u.createDirAnswer = true)
    (hw : w.writeFails (pjoin (pjoin (resolvedDir w d) frameworkDirName) "README.md") = false) :
    lookupFile (installFramework w u d).fs
        (pjoin (pjoin (resolvedDir w d) frameworkDirName) "README.md")
      = some (readmeContent comps) ∧
    (jsRulesLine.data <:+: (readmeContent comps).data
      ↔ comps.contains "javascript" = true) ∧
    (sqlRulesLine.data <:+: (readmeContent comps).data
      ↔ comps.contains "sql" = true) ∧
    (jsMemoryLine.data <:+: (readmeContent comps).data
      ↔ comps.contains "js-memory" = true) ∧
    (sqlMemoryLine.data <:+: (readmeContent comps).data
      ↔ comps.contains "sql-memory" = true) := by
  refine ⟨?_, readme_mentions_js comps, readme_mentions_sql comps,
    readme_mentions_jsMemory comps, readme_mentions_sqlMemory comps⟩
  rw [installFramework_unfold w u d comps hsel hreach]
  exact lookup_readme_after_finish w (resolvedDir w d) comps _ _ hw

theorem c1_witness :
    lookupFile (installFramework jsFailWorld ⟨true, [["javascript", "sql"]]⟩ ".").fs
        (pjoin (pjoin (resolvedDir jsFailWorld ".") frameworkDirName) "README.md")
      = some (readmeContent ["javascript", "sql"]) ∧
    (jsRulesLine.data <:+: (readmeContent ["javascript", "sql"]).data
      ↔ (["javascript", "sql"] : List String).contains "javascript" = true) :=
  ⟨(c1_readme_lists_requested jsFailWorld ⟨true, [["javascript", "sql"]]⟩ "."
      ["javascript", "sql"] rfl (Or.inl rfl) rfl).1,
   (c1_readme_lists_requested jsFailWorld ⟨true, [["javascript", "sql"]]⟩ "."
      ["javascript", "sql"] rfl (Or.inl rfl) rfl).2.1⟩

/-! ### Helper lemmas: the finishing phase, reports and outcomes -/

lemma finishInstall_report (w : World) (I : String) (comps : List String) (fs : FS)
    (rep : List (String × Bool)) :
    (finishInstall w I comps fs rep).report = rep := by
  simp only [finishInstall]
  split
  · rfl
  · split
    · split
      · rfl
      · split
        · rfl
        · split
          · rfl
          · split
            · rfl
            · rfl
    · rfl

lemma finishInstall_completed_write_ok (w : World) (I : String) (comps : List String)
    (fs : FS) (rep : List (String × Bool))
    (hc : (finishInstall w I comps fs rep).outcome = RunOutcome.completed) :
    w.writeFails (pjoin (pjoin I frameworkDirName) "README.md") = false := by
  cases hwf : w.writeFails (pjoin (pjoin I frameworkDirName) "README.md") with
  | false => rfl
  | true =>
    rw [finishInstall_readme_fails w I comps fs rep hwf] at hc
    exact absurd hc (by simp)

/-- The finishing phase ends identically for two worlds that agree on the
write and read oracles, started from filesystems agreeing at the
`.gitignore` path. -/
lemma finishInstall_outcome_eq (w w2 : World) (I : String) (comps : List String)
    (fs fs2 : FS) (rep rep2 : List (String × Bool))
    (hwf : w.writeFails = w2.writeFails) (hrf : w.readFails = w2.readFails)
    (hl : lookupFile fs (pjoin I ".gitignore") = lookupFile fs2 (pjoin I ".gitignore"))
    (hd : fs.isDir (pjoin I ".gitignore") = fs2.isDir (pjoin I ".gitignore")) :
    (finishInstall w I comps fs rep).outcome
      = (finishInstall w2 I comps fs2 rep2).outcome := by
  have hpe : pathExists (setFile fs (pjoin (pjoin I frameworkDirName) "README.md")
        (readmeContent comps)) (pjoin I ".gitignore")
      = pathExists (setFile fs2 (pjoin (pjoin I frameworkDirName) "README.md")
        (readmeContent comps)) (pjoin I ".gitignore") := by
    rw [pathExists, pathExists, isDir_setFile, isDir_setFile, hd,
      lookupFile_setFile, lookupFile_setFile, hl]
  have hlk : lookupFile (setFile fs (pjoin (pjoin I frameworkDirName) "README.md")
        (readmeContent comps)) (pjoin I ".gitignore")
      = lookupFile (setFile fs2 (pjoin (pjoin I frameworkDirName) "README.md")
        (readmeContent comps)) (pjoin I ".gitignore") := by
    rw [lookupFile_setFile, lookupFile_setFile, hl]
  simp only [finishInstall, ← hwf, ← hrf]
  rw [← hpe, ← hlk]
  split
  · rfl
  · split
    · split
      · rfl
      · split
        · rfl
        · split
          · rfl
          · split
            · rfl
            · rfl
    · rfl

/-! ### C2 — exit code and failure isolation -/

/-- C2 counterexample: the manifest/README write succeeds — the README is
on disk with its full content — yet the run exits non-zero because the
subsequent `.gitignore` rewrite fails; this refutes the claimed
equivalence between overall success and README-write success. -/
theorem c2_counterexample :
    lookupFile (installFramework gitWriteFailWorld ⟨true, [["javascript"]]⟩ ".").fs
        "/proj/.naichii-agent/README.md" = some (readmeContent ["javascript"]) ∧
    (installFramework gitWriteFailWorld ⟨true, [["javascript"]]⟩ ".").outcome
      = RunOutcome.errored "gitignore write failed" ∧
    exitCode (installFramework gitWriteFailWorld ⟨true, [["javascript"]]⟩ ".").outcome
      = some 1 :=
  ⟨rfl, rfl, rfl⟩

/-- C2 amended: for every run that reaches the install phase with a
resolved selection: exit code 0 implies the README write succeeded and the
README is present; every selected component is processed and recorded
regardless of other components failing (no copy failure aborts the loop);
and the exit outcome is entirely independent of the copy-failure oracle —
but README-write success does not conversely guarantee exit 0, since a
later `.gitignore` read or write failure also exits non-zero. -/
theorem c2_exit_iff_readme_corrected (w : World) (u : UserInput) (d : String)
    (comps : List String)
    (hsel : checkboxPrompt u.submissions = some comps)
    (hreach : pathExists w.fs (resolvedDir w d) = true ∨ u.createDirAnswer = true) :
    ((installFramework w u d).outcome = RunOutcome.completed →
      w.writeFails (pjoin (pjoin (resolvedDir w d) frameworkDirName) "README.md") = false ∧
      lookupFile (installFramework w u d).fs
          (pjoin (pjoin (resolvedDir w d) frameworkDirName) "README.md")
        = some (readmeContent comps)) ∧
    (installFramework w u d).report = reportOf w comps catalog ∧
    (∀ f, (installFramework { w with copyFails := f } u d).outcome
        = (installFramework w u d).outcome) := by
  have hrun := installFramework_unfold w u d comps hsel hreach
  refine ⟨?_, ?_, ?_⟩
  · intro hc
    rw [hrun] at hc
    have hwf := finishInstall_completed_write_ok w (resolvedDir w d) comps _ _ hc
    refine ⟨hwf, ?_⟩
    rw [hrun]
    exact lookup_readme_after_finish w (resolvedDir w d) comps _ _ hwf
  · rw [hrun, finishInstall_report, report_after_copies]
  · intro f
    have hrun2 : installFramework { w with copyFails := f } u d
        = finishInstall { w with copyFails := f } (resolvedDir w d) comps
            (installComponents { w with copyFails := f } (resolvedDir w d) comps
              (installBase { w with copyFails := f } d, [])).1
            (installComponents { w with copyFails := f } (resolvedDir w d) comps
              (installBase { w with copyFails := f } d, [])).2 :=
      installFramework_unfold { w with copyFails := f } u d comps hsel hreach
    rw [hrun, hrun2]
    refine (finishInstall_outcome_eq w { w with copyFails := f } (resolvedDir w d)
      comps _ _ _ _ rfl rfl ?_ ?_).symm.symm
    · rw [lookup_gitignore_after_copies, lookup_gitignore_after_copies]
      exact (lookup_installBase w d _).trans
        ((lookup_installBase { w with copyFails := f } d
          (pjoin (resolvedDir w d) ".gitignore")).symm)
    · rw [isDir_gitignore_after_copies, isDir_gitignore_after_copies]
      exact (isDir_installBase_at w d _ (coveredBy_pjoin_self _ _)).trans
        ((isDir_installBase_at { w with copyFails := f } d
          (pjoin (resolvedDir w d) ".gitignore")
          (coveredBy_pjoin_self (resolvedDir w d) ".gitignore")).symm)

theorem c2_witness :
    (installFramework jsFailWorld ⟨true, [["javascript", "sql"]]⟩ ".").report
      = reportOf jsFailWorld ["javascript", "sql"] catalog ∧
    (installFramework { okWorld with copyFails := jsFailWorld.copyFails }
        ⟨true, [["javascript", "sql"]]⟩ ".").outcome
      = (installFramework okWorld ⟨true, [["javascript", "sql"]]⟩ ".").outcome :=
  ⟨(c2_exit_iff_readme_corrected jsFailWorld ⟨true, [["javascript", "sql"]]⟩ "."
      ["javascript", "sql"] rfl (Or.inl rfl)).2.1,
   (c2_exit_iff_readme_corrected okWorld ⟨true, [["javascript", "sql"]]⟩ "."
      ["javascript", "sql"] rfl (Or.inl rfl)).2.2 jsFailWorld.copyFails⟩

/-! ### C9 — the marker test is a plain substring check -/

/-- C9: the `.gitignore` marker test is a plain substring check for
`.naichii-agent` anywhere in the file: any pre-existing occurrence — even
inside an unrelated comment or as part of a longer path, with no actual
ignore entry — suppresses appending the suggestion block, leaving the file
untouched. -/
theorem c9_marker_plain_substring (w : World) (u : UserInput) (d : String)
    (comps : List String)
    (hsel : checkboxPrompt u.submissions = some comps)
    (hreach : pathExists w.fs (resolvedDir w d) = true ∨ u.createDirAnswer = true)
    (hw : w.writeFails (pjoin (pjoin (resolvedDir w d) frameworkDirName) "README.md") = false)
    (hrg : w.readFails (pjoin (resolvedDir w d) ".gitignore") = false) :
    (∀ a b : String, containsMarker (a ++ frameworkDirName ++ b) = true) ∧
    (∀ a b : String,
      lookupFile w.fs (pjoin (resolvedDir w d) ".gitignore")
          = some (a ++ frameworkDirName ++ b) →
      lookupFile (installFramework w u d).fs (pjoin (resolvedDir w d) ".gitignore")
          = some (a ++ frameworkDirName ++ b) ∧
      (installFramework w u d).outcome = RunOutcome.completed) := by
  have hmarker : ∀ a b : String, containsMarker (a ++ frameworkDirName ++ b) = true := by
    intro a b
    rw [containsMarker_iff]
    simp only [String.data_append]
    exact List.infix_append a.data frameworkDirName.data b.data
  refine ⟨hmarker, ?_⟩
  intro a b hg
  have hrun := installFramework_unfold w u d comps hsel hreach
  have hgne : pjoin (resolvedDir w d) ".gitignore"
      ≠ pjoin (pjoin (resolvedDir w d) frameworkDirName) "README.md" :=
    fun h => readmePath_ne_gitignorePath (resolvedDir w d) h.symm
  have hfs1l : lookupFile
      (setFile (installComponents w (resolvedDir w d) comps (installBase w d, [])).1
        (pjoin (pjoin (resolvedDir w d) frameworkDirName) "README.md") (readmeContent comps))
      (pjoin (resolvedDir w d) ".gitignore")
      = lookupFile w.fs (pjoin (resolvedDir w d) ".gitignore") := by
    rw [lookupFile_setFile, if_neg hgne, lookup_gitignore_after_copies, lookup_installBase]
  rw [hrun, finishInstall_marker_present w (resolvedDir w d) comps _ _
    (a ++ frameworkDirName ++ b) hw (by rw [hfs1l, hg]) (hmarker a b) hrg]
  exact ⟨by rw [hfs1l, hg], rfl⟩

theorem c9_witness :
    lookupFile (installFramework gitMarkerWorld ⟨true, [["javascript"]]⟩ ".").fs
        (pjoin (resolvedDir gitMarkerWorld ".") ".gitignore")
      = some ("# see docs/" ++ frameworkDirName ++ "-notes.md\nnode_modules\n") ∧
    (installFramework gitMarkerWorld ⟨true, [["javascript"]]⟩ ".").outcome
      = RunOutcome.completed :=
  (c9_marker_plain_substring gitMarkerWorld ⟨true, [["javascript"]]⟩ "." ["javascript"]
    rfl (Or.inl rfl) rfl rfl).2 "# see docs/" "-notes.md\nnode_modules\n" (by decide)

/-! ### Helper lemmas: towards idempotence -/

lemma overrList_isSome (ws : List (String × String)) (p : String) (v : Option String)
    (h : v.isSome = true) : (overrList ws p v).isSome = true := by
  simp only [overrList]
  cases hf : ws.reverse.find? (fun e => e.1 = p) <;> simp [h]

lemma pathExists_setFile_mono (fs : FS) (k c p : String)
    (h : pathExists fs p = true) : pathExists (setFile fs k c) p = true := by
  by_cases hp : p = k
  · simp [pathExists, lookupFile_setFile, hp]
  · simpa [pathExists, lookupFile_setFile, hp, isDir_setFile] using h

lemma pathExists_installComponents_mono (w : World) (I : String) (comps : List String)
    (fs : FS) (rep : List (String × Bool)) (p : String)
    (h : pathExists fs p = true) :
    pathExists (installComponents w I comps (fs, rep)).1 p = true := by
  rw [pathExists, installComponents_eq_foldl, icFold_isDir, icFold_lookup]
  rw [pathExists, Bool.or_eq_true] at h
  rcases h with hd | hl
  · simp [hd]
  · simp [overrList_isSome _ _ _ hl]

lemma pathExists_installBase (w : World) (d : String) :
    pathExists (installBase w d) (resolvedDir w d) = true := by
  rw [installBase]
  by_cases hex : pathExists w.fs (resolvedDir w d) = true
  · rw [if_pos hex]
    exact hex
  · rw [if_neg hex, pathExists, isDir_ensureDir]
    simp [coveredBy]

lemma installBase_of_exists (w : World) (d : String)
    (hex : pathExists w.fs (resolvedDir w d) = true) : installBase w d = w.fs := by
  rw [installBase, if_pos hex]

lemma containsMarker_append_block (g : String) :
    containsMarker (g ++ gitignoreBlock) = true := by
  rw [containsMarker_iff, String.data_append]
  have hb : frameworkDirName.data <:+: gitignoreBlock.data := by
    rw [← containsSub_iff]
    decide
  obtain ⟨s, t, hst⟩ := hb
  exact ⟨g.data ++ s, t, by rw [← hst]; simp [List.append_assoc]⟩

lemma finishInstall_outcome_read_fails (w : World) (I : String) (comps : List String)
    (fs : FS) (rep : List (String × Bool))
    (hw : w.writeFails (pjoin (pjoin I frameworkDirName) "README.md") = false)
    (hpe : pathExists (setFile fs (pjoin (pjoin I frameworkDirName) "README.md")
        (readmeContent comps)) (pjoin I ".gitignore") = true)
    (hr : w.readFails (pjoin I ".gitignore") = true) :
    (finishInstall w I comps fs rep).outcome
      = RunOutcome.errored "gitignore read failed" := by
  simp [finishInstall, hw, hpe, hr]

lemma finishInstall_outcome_read_none (w : World) (I : String) (comps : List String)
    (fs : FS) (rep : List (String × Bool))
    (hw : w.writeFails (pjoin (pjoin I frameworkDirName) "README.md") = false)
    (hpe : pathExists (setFile fs (pjoin (pjoin I frameworkDirName) "README.md")
        (readmeContent comps)) (pjoin I ".gitignore") = true)
    (hr : w.readFails (pjoin I ".gitignore") = false)
    (hlk : lookupFile (setFile fs (pjoin (pjoin I frameworkDirName) "README.md")
        (readmeContent comps)) (pjoin I ".gitignore") = none) :
    (finishInstall w I comps fs rep).outcome
      = RunOutcome.errored "gitignore read failed" := by
  simp [finishInstall, hw, hpe, hr, hlk]

lemma finishInstall_outcome_gwrite_fails (w : World) (I : String) (comps : List String)
    (fs : FS) (rep : List (String × Bool)) (g : String)
    (hw : w.writeFails (pjoin (pjoin I frameworkDirName) "README.md") = false)
    (hr : w.readFails (pjoin I ".gitignore") = false)
    (hlk : lookupFile (setFile fs (pjoin (pjoin I frameworkDirName) "README.md")
        (readmeContent comps)) (pjoin I ".gitignore") = some g)
    (hm : containsMarker g = false)
    (hwg : w.writeFails (pjoin I ".gitignore") = true) :
    (finishInstall w I comps fs rep).outcome
      = RunOutcome.errored "gitignore write failed" := by
  have hpe : pathExists (setFile fs (pjoin (pjoin I frameworkDirName) "README.md")
      (readmeContent comps)) (pjoin I ".gitignore") = true := by
    rw [pathExists, hlk]
    simp
  simp [finishInstall, hw, hpe, hr, hlk, hm, hwg]

lemma completed_run_shape (w : World) (u : UserInput) (d : String)
    (h1 : (installFramework w u d).outcome = RunOutcome.completed) :
    (∃ comps, checkboxPrompt u.submissions = some comps) ∧
    (pathExists w.fs (resolvedDir w d) = true ∨ u.createDirAnswer = true) := by
  rw [installFramework] at h1
  rw [show resolveInstallDir w.initCwd w.pwdEnv w.cwd d = resolvedDir w d from rfl] at h1
  by_cases hex : pathExists w.fs (resolvedDir w d) = true
  · rw [if_pos hex] at h1
    refine ⟨?_, Or.inl hex⟩
    rw [promptAndInstall] at h1
    cases hc : checkboxPrompt u.submissions with
    | none =>
      rw [hc] at h1
      exact absurd h1 (by simp)
    | some c => exact ⟨c, rfl⟩
  · rw [if_neg hex] at h1
    by_cases hans : u.createDirAnswer = true
    · rw [if_pos hans] at h1
      refine ⟨?_, Or.inr hans⟩
      rw [promptAndInstall] at h1
      cases hc : checkboxPrompt u.submissions with
      | none =>
        rw [hc] at h1
        exact absurd h1 (by simp)
      | some c => exact ⟨c, rfl⟩
    · rw [if_neg hans] at h1
      exact absurd h1 (by simp)

/-- Replaying a write set over its own result converges (files):
simple case, where the first run ended right after the README write. -/
lemma replay_lookup_plain (W : List (String × String)) (rp rc : String)
    (fsA fsA2 base r1fs : FS)
    (hr1 : r1fs = setFile fsA rp rc)
    (hA : ∀ p, lookupFile fsA p = overrList W p (lookupFile base p))
    (hA2 : ∀ p, lookupFile fsA2 p = overrList W p (lookupFile r1fs p)) :
    ∀ p, lookupFile (setFile fsA2 rp rc) p = lookupFile r1fs p := by
  intro p
  rw [lookupFile_setFile, hr1, lookupFile_setFile]
  by_cases hp : p = rp
  · rw [if_pos hp, if_pos hp]
  · rw [if_neg hp, if_neg hp, hA2, hr1, lookupFile_setFile, if_neg hp, hA, overrList_idem]

/-- Replaying a write set over its own result converges (files): the case
where the first run also appended the `.gitignore` block. -/
lemma replay_lookup_block (W : List (String × String)) (rp rc gp gb : String)
    (fsA fsA2 base r1fs : FS)
    (hgne : gp ≠ rp)
    (hgW : ∀ e ∈ W, e.1 ≠ gp)
    (hr1 : r1fs = setFile (setFile fsA rp rc) gp gb)
    (hA : ∀ p, lookupFile fsA p = overrList W p (lookupFile base p))
    (hA2 : ∀ p, lookupFile fsA2 p = overrList W p (lookupFile r1fs p)) :
    ∀ p, lookupFile (setFile fsA2 rp rc) p = lookupFile r1fs p := by
  intro p
  by_cases hp : p = rp
  · subst hp
    rw [lookupFile_setFile, if_pos rfl, hr1, lookupFile_setFile,
      if_neg (Ne.symm hgne), lookupFile_setFile, if_pos rfl]
  · rw [lookupFile_setFile, if_neg hp, hA2]
    by_cases hpg : p = gp
    · subst hpg
      rw [overrList_of_not_mem _ _ _ hgW]
    · rw [hr1, lookupFile_setFile, if_neg hpg, lookupFile_setFile, if_neg hp, hA,
        overrList_idem]

/-! ### C3 — idempotence of install -/

/-- C3: running install twice with the same target, selection, and
source content converges: the second run completes too, and the
destination tree after the second run is byte-identical (same file
contents at every path, same directories) to the tree after the first —
every copy overwrites, the README is rebuilt fresh, and the `.gitignore`
block is not appended a second time. -/
theorem c3_install_idempotent (w : World) (u : UserInput) (d : String)
    (h1 : (installFramework w u d).outcome = RunOutcome.completed) :
    (installFramework { w with fs := (installFramework w u d).fs } u d).outcome
      = RunOutcome.completed ∧
    (∀ p, lookupFile (installFramework { w with fs := (installFramework w u d).fs } u d).fs p
        = lookupFile (installFramework w u d).fs p) ∧
    (∀ q, (installFramework { w with fs := (installFramework w u d).fs } u d).fs.isDir q
        = (installFramework w u d).fs.isDir q) := by
  obtain ⟨⟨comps, hsel⟩, hreach⟩ := completed_run_shape w u d h1
  have hrun := installFramework_unfold w u d comps hsel hreach
  have h1f := h1
  rw [hrun] at h1f
  have hwf := finishInstall_completed_write_ok w (resolvedDir w d) comps _ _ h1f
  have hgne : pjoin (resolvedDir w d) ".gitignore"
      ≠ pjoin (pjoin (resolvedDir w d) frameworkDirName) "README.md" :=
    fun h => readmePath_ne_gitignorePath (resolvedDir w d) h.symm
  have hlA : lookupFile (installComponents w (resolvedDir w d) comps (installBase w d, [])).1
      (pjoin (resolvedDir w d) ".gitignore")
      = lookupFile w.fs (pjoin (resolvedDir w d) ".gitignore") := by
    rw [lookup_gitignore_after_copies, lookup_installBase]
  have hdA : (installComponents w (resolvedDir w d) comps (installBase w d, [])).1.isDir
      (pjoin (resolvedDir w d) ".gitignore")
      = w.fs.isDir (pjoin (resolvedDir w d) ".gitignore") := by
    rw [isDir_gitignore_after_copies, isDir_installBase_gitignore]
  have hA : ∀ p, lookupFile (installComponents w (resolvedDir w d) comps (installBase w d, [])).1 p
      = overrList (writesOf w (resolvedDir w d) comps catalog) p
          (lookupFile (installBase w d) p) := by
    intro p
    rw [installComponents_eq_foldl, icFold_lookup]
  have hgW : ∀ e ∈ writesOf w (resolvedDir w d) comps catalog,
      e.1 ≠ pjoin (resolvedDir w d) ".gitignore" := by
    intro e he
    obtain ⟨c, rel, _, hkey⟩ := writesOf_key_shape w (resolvedDir w d) comps catalog e he
    rw [hkey]
    exact copyKey_ne_gitignorePath (resolvedDir w d) c.destRel rel
  have hfs1l : lookupFile
      (setFile (installComponents w (resolvedDir w d) comps (installBase w d, [])).1
        (pjoin (pjoin (resolvedDir w d) frameworkDirName) "README.md") (readmeContent comps))
      (pjoin (resolvedDir w d) ".gitignore")
      = lookupFile w.fs (pjoin (resolvedDir w d) ".gitignore") := by
    rw [lookupFile_setFile, if_neg hgne, hlA]
  cases hpw : pathExists w.fs (pjoin (resolvedDir w d) ".gitignore") with
  | false =>
    have hpe1 : pathExists
        (setFile (installComponents w (resolvedDir w d) comps (installBase w d, [])).1
          (pjoin (pjoin (resolvedDir w d) frameworkDirName) "README.md") (readmeContent comps))
        (pjoin (resolvedDir w d) ".gitignore") = false := by
      rw [pathExists, isDir_setFile, hdA, hfs1l]
      rw [pathExists] at hpw
      exact hpw
    have hr1 : installFramework w u d
        = ⟨setFile (installComponents w (resolvedDir w d) comps (installBase w d, [])).1
              (pjoin (pjoin (resolvedDir w d) frameworkDirName) "README.md") (readmeContent comps),
            RunOutcome.completed,
            (installComponents w (resolvedDir w d) comps (installBase w d, [])).2⟩ := by
      rw [hrun, finishInstall_no_gitignore w (resolvedDir w d) comps _ _ hwf hpe1]
    have hfs1 : (installFramework w u d).fs
        = setFile (installComponents w (resolvedDir w d) comps (installBase w d, [])).1
            (pjoin (pjoin (resolvedDir w d) frameworkDirName) "README.md") (readmeContent comps) := by
      rw [hr1]
    set w2 : World := { w with fs := (installFramework w u d).fs } with hw2def
    have hfs2 : w2.fs = (installFramework w u d).fs := rfl
    have hI2 : resolvedDir w2 d = resolvedDir w d := rfl
    have hwf2 : w2.writeFails (pjoin (pjoin (resolvedDir w2 d) frameworkDirName) "README.md")
        = false := hwf
    have hex2 : pathExists w2.fs (resolvedDir w2 d) = true := by
      rw [hfs2, hI2, hfs1]
      exact pathExists_setFile_mono _ _ _ _
        (pathExists_installComponents_mono w (resolvedDir w d) comps _ _ _
          (pathExists_installBase w d))
    have hrun2 := installFramework_unfold w2 u d comps hsel (Or.inl hex2)
    have hbase2 : installBase w2 d = w2.fs := installBase_of_exists w2 d hex2
    have hgne2 : pjoin (resolvedDir w2 d) ".gitignore"
        ≠ pjoin (pjoin (resolvedDir w2 d) frameworkDirName) "README.md" :=
      fun h => readmePath_ne_gitignorePath (resolvedDir w2 d) h.symm
    have hlA2 : lookupFile
        (installComponents w2 (resolvedDir w2 d) comps (installBase w2 d, [])).1
        (pjoin (resolvedDir w2 d) ".gitignore")
        = lookupFile w.fs (pjoin (resolvedDir w d) ".gitignore") := by
      rw [lookup_gitignore_after_copies, lookup_installBase, hfs2, hI2, hfs1,
        lookupFile_setFile, if_neg hgne, hlA]
    have hdA2 : (installComponents w2 (resolvedDir w2 d) comps (installBase w2 d, [])).1.isDir
        (pjoin (resolvedDir w2 d) ".gitignore")
        = w.fs.isDir (pjoin (resolvedDir w d) ".gitignore") := by
      rw [isDir_gitignore_after_copies, isDir_installBase_gitignore, hfs2, hI2, hfs1,
        isDir_setFile, hdA]
    have hA2 : ∀ p, lookupFile
        (installComponents w2 (resolvedDir w2 d) comps (installBase w2 d, [])).1 p
        = overrList (writesOf w (resolvedDir w d) comps catalog) p
            (lookupFile (setFile (installComponents w (resolvedDir w d) comps (installBase w d, [])).1
              (pjoin (pjoin (resolvedDir w d) frameworkDirName) "README.md")
              (readmeContent comps)) p) := by
      intro p
      rw [installComponents_eq_foldl, icFold_lookup, hbase2, hfs2, hfs1]
      exact rfl
    have hpe2 : pathExists
        (setFile (installComponents w2 (resolvedDir w2 d) comps (installBase w2 d, [])).1
          (pjoin (pjoin (resolvedDir w2 d) frameworkDirName) "README.md") (readmeContent comps))
        (pjoin (resolvedDir w2 d) ".gitignore") = false := by
      rw [pathExists, isDir_setFile, hdA2, lookupFile_setFile, if_neg hgne2, hlA2]
      rw [pathExists] at hpw
      exact hpw
    have hr2 : installFramework w2 u d
        = ⟨setFile (installComponents w2 (resolvedDir w2 d) comps (installBase w2 d, [])).1
              (pjoin (pjoin (resolvedDir w2 d) frameworkDirName) "README.md")
              (readmeContent comps),
            RunOutcome.completed,
            (installComponents w2 (resolvedDir w2 d) comps (installBase w2 d, [])).2⟩ := by
      rw [hrun2, finishInstall_no_gitignore w2 (resolvedDir w2 d) comps _ _ hwf2 hpe2]
    have hD2 : ∀ q, (installComponents w2 (resolvedDir w2 d) comps (installBase w2 d, [])).1.isDir q
        = ((catalog.any fun c => comps.contains c.id && coveredBy q (destPath (resolvedDir w d) c))
            || (installComponents w (resolvedDir w d) comps (installBase w d, [])).1.isDir q) := by
      intro q
      rw [installComponents_eq_foldl, icFold_isDir, hbase2, hfs2, hfs1, isDir_setFile]
      exact rfl
    refine ⟨?_, ?_, ?_⟩
    · rw [hr2]
    · intro p
      simp only [hr2, hfs1]
      exact replay_lookup_plain (writesOf w (resolvedDir w d) comps catalog)
        (pjoin (pjoin (resolvedDir w d) frameworkDirName) "README.md") (readmeContent comps)
        (installComponents w (resolvedDir w d) comps (installBase w d, [])).1
        (installComponents w2 (resolvedDir w2 d) comps (installBase w2 d, [])).1
        (installBase w d) _ rfl hA hA2 p
    · intro q
      simp only [hr2, hfs1]
      rw [isDir_setFile, isDir_setFile, hD2, installComponents_eq_foldl, icFold_isDir,
        Bool.or_self_left]
  | true =>
    have hpe1 : pathExists
        (setFile (installComponents w (resolvedDir w d) comps (installBase w d, [])).1
          (pjoin (pjoin (resolvedDir w d) frameworkDirName) "README.md") (readmeContent comps))
        (pjoin (resolvedDir w d) ".gitignore") = true := by
      rw [pathExists, isDir_setFile, hdA, hfs1l]
      rw [pathExists] at hpw
      exact hpw
    cases hr : w.readFails (pjoin (resolvedDir w d) ".gitignore") with
    | true =>
      rw [finishInstall_outcome_read_fails w (resolvedDir w d) comps _ _ hwf hpe1 hr] at h1f
      simp at h1f
    | false =>
      cases hg : lookupFile w.fs (pjoin (resolvedDir w d) ".gitignore") with
      | none =>
        rw [finishInstall_outcome_read_none w (resolvedDir w d) comps _ _ hwf hpe1 hr
          (by rw [hfs1l, hg])] at h1f
        simp at h1f
      | some g =>
        cases hm : containsMarker g with
        | true =>
          have hr1 : installFramework w u d
              = ⟨setFile (installComponents w (resolvedDir w d) comps (installBase w d, [])).1
                    (pjoin (pjoin (resolvedDir w d) frameworkDirName) "README.md")
                    (readmeContent comps),
                  RunOutcome.completed,
                  (installComponents w (resolvedDir w d) comps (installBase w d, [])).2⟩ := by
            rw [hrun, finishInstall_marker_present w (resolvedDir w d) comps _ _ g hwf
              (by rw [hfs1l, hg]) hm hr]
          have hfs1 : (installFramework w u d).fs
              = setFile (installComponents w (resolvedDir w d) comps (installBase w d, [])).1
                  (pjoin (pjoin (resolvedDir w d) frameworkDirName) "README.md")
                  (readmeContent comps) := by
            rw [hr1]
          set w2 : World := { w with fs := (installFramework w u d).fs } with hw2def
          have hfs2 : w2.fs = (installFramework w u d).fs := rfl
          have hI2 : resolvedDir w2 d = resolvedDir w d := rfl
          have hwf2 : w2.writeFails (pjoin (pjoin (resolvedDir w2 d) frameworkDirName) "README.md")
              = false := hwf
          have hr2r : w2.readFails (pjoin (resolvedDir w2 d) ".gitignore") = false := hr
          have hex2 : pathExists w2.fs (resolvedDir w2 d) = true := by
            rw [hfs2, hI2, hfs1]
            exact pathExists_setFile_mono _ _ _ _
              (pathExists_installComponents_mono w (resolvedDir w d) comps _ _ _
                (pathExists_installBase w d))
          have hrun2 := installFramework_unfold w2 u d comps hsel (Or.inl hex2)
          have hbase2 : installBase w2 d = w2.fs := installBase_of_exists w2 d hex2
          have hgne2 : pjoin (resolvedDir w2 d) ".gitignore"
              ≠ pjoin (pjoin (resolvedDir w2 d) frameworkDirName) "README.md" :=
            fun h => readmePath_ne_gitignorePath (resolvedDir w2 d) h.symm
          have hlA2 : lookupFile
              (installComponents w2 (resolvedDir w2 d) comps (installBase w2 d, [])).1
              (pjoin (resolvedDir w2 d) ".gitignore")
              = some g := by
            rw [lookup_gitignore_after_copies, lookup_installBase, hfs2, hI2, hfs1,
              lookupFile_setFile, if_neg hgne, hlA, hg]
          have hA2 : ∀ p, lookupFile
              (installComponents w2 (resolvedDir w2 d) comps (installBase w2 d, [])).1 p
              = overrList (writesOf w (resolvedDir w d) comps catalog) p
                  (lookupFile (setFile (installComponents w (resolvedDir w d) comps
                    (installBase w d, [])).1
                    (pjoin (pjoin (resolvedDir w d) frameworkDirName) "README.md")
                    (readmeContent comps)) p) := by
            intro p
            rw [installComponents_eq_foldl, icFold_lookup, hbase2, hfs2, hfs1]
            exact rfl
          have hlk2 : lookupFile
              (setFile (installComponents w2 (resolvedDir w2 d) comps (installBase w2 d, [])).1
                (pjoin (pjoin (resolvedDir w2 d) frameworkDirName) "README.md")
                (readmeContent comps))
              (pjoin (resolvedDir w2 d) ".gitignore") = some g := by
            rw [lookupFile_setFile, if_neg hgne2, hlA2]
          have hr2 : installFramework w2 u d
              = ⟨setFile (installComponents w2 (resolvedDir w2 d) comps (installBase w2 d, [])).1
                    (pjoin (pjoin (resolvedDir w2 d) frameworkDirName) "README.md")
                    (readmeContent comps),
                  RunOutcome.completed,
                  (installComponents w2 (resolvedDir w2 d) comps (installBase w2 d, [])).2⟩ := by
            rw [hrun2, finishInstall_marker_present w2 (resolvedDir w2 d) comps _ _ g hwf2
              hlk2 hm hr2r]
          have hD2 : ∀ q, (installComponents w2 (resolvedDir w2 d) comps
              (installBase w2 d, [])).1.isDir q
              = ((catalog.any fun c => comps.contains c.id
                    && coveredBy q (destPath (resolvedDir w d) c))
                  || (installComponents w (resolvedDir w d) comps (installBase w d, [])).1.isDir q) := by
            intro q
            rw [installComponents_eq_foldl, icFold_isDir, hbase2, hfs2, hfs1, isDir_setFile]
            exact rfl
          refine ⟨?_, ?_, ?_⟩
          · rw [hr2]
          · intro p
            simp only [hr2, hfs1]
            exact replay_lookup_plain (writesOf w (resolvedDir w d) comps catalog)
              (pjoin (pjoin (resolvedDir w d) frameworkDirName) "README.md") (readmeContent comps)
              (installComponents w (resolvedDir w d) comps (installBase w d, [])).1
              (installComponents w2 (resolvedDir w2 d) comps (installBase w2 d, [])).1
              (installBase w d) _ rfl hA hA2 p
          · intro q
            simp only [hr2, hfs1]
            rw [isDir_setFile, isDir_setFile, hD2, installComponents_eq_foldl, icFold_isDir,
              Bool.or_self_left]
        | false =>
          cases hwg : w.writeFails (pjoin (resolvedDir w d) ".gitignore") with
          | true =>
            rw [finishInstall_outcome_gwrite_fails w (resolvedDir w d) comps _ _ g hwf hr
              (by rw [hfs1l, hg]) hm hwg] at h1f
            simp at h1f
          | false =>
            have hr1 : installFramework w u d
                = ⟨setFile (setFile (installComponents w (resolvedDir w d) comps
                      (installBase w d, [])).1
                      (pjoin (pjoin (resolvedDir w d) frameworkDirName) "README.md")
                      (readmeContent comps))
                      (pjoin (resolvedDir w d) ".gitignore") (g ++ gitignoreBlock),
                    RunOutcome.completed,
                    (installComponents w (resolvedDir w d) comps (installBase w d, [])).2⟩ := by
              rw [hrun, finishInstall_write_block w (resolvedDir w d) comps _ _ g hwf
                (by rw [hfs1l, hg]) hm hr hwg]
            have hfs1 : (installFramework w u d).fs
                = setFile (setFile (installComponents w (resolvedDir w d) comps
                    (installBase w d, [])).1
                    (pjoin (pjoin (resolvedDir w d) frameworkDirName) "README.md")
                    (readmeContent comps))
                    (pjoin (resolvedDir w d) ".gitignore") (g ++ gitignoreBlock) := by
              rw [hr1]
            set w2 : World := { w with fs := (installFramework w u d).fs } with hw2def
            have hfs2 : w2.fs = (installFramework w u d).fs := rfl
            have hI2 : resolvedDir w2 d = resolvedDir w d := rfl
            have hwf2 : w2.writeFails
                (pjoin (pjoin (resolvedDir w2 d) frameworkDirName) "README.md") = false := hwf
            have hr2r : w2.readFails (pjoin (resolvedDir w2 d) ".gitignore") = false := hr
            have hex2 : pathExists w2.fs (resolvedDir w2 d) = true := by
              rw [hfs2, hI2, hfs1]
              exact pathExists_setFile_mono _ _ _ _
                (pathExists_setFile_mono _ _ _ _
                  (pathExists_installComponents_mono w (resolvedDir w d) comps _ _ _
                    (pathExists_installBase w d)))
            have hrun2 := installFramework_unfold w2 u d comps hsel (Or.inl hex2)
            have hbase2 : installBase w2 d = w2.fs := installBase_of_exists w2 d hex2
            have hgne2 : pjoin (resolvedDir w2 d) ".gitignore"
                ≠ pjoin (pjoin (resolvedDir w2 d) frameworkDirName) "README.md" :=
              fun h => readmePath_ne_gitignorePath (resolvedDir w2 d) h.symm
            have hlA2 : lookupFile
                (installComponents w2 (resolvedDir w2 d) comps (installBase w2 d, [])).1
                (pjoin (resolvedDir w2 d) ".gitignore")
                = some (g ++ gitignoreBlock) := by
              rw [lookup_gitignore_after_copies, lookup_installBase, hfs2, hI2, hfs1,
                lookupFile_setFile, if_pos rfl]
            have hA2 : ∀ p, lookupFile
                (installComponents w2 (resolvedDir w2 d) comps (installBase w2 d, [])).1 p
                = overrList (writesOf w (resolvedDir w d) comps catalog) p
                    (lookupFile (setFile (setFile (installComponents w (resolvedDir w d) comps
                      (installBase w d, [])).1
                      (pjoin (pjoin (resolvedDir w d) frameworkDirName) "README.md")
                      (readmeContent comps))
                      (pjoin (resolvedDir w d) ".gitignore") (g ++ gitignoreBlock)) p) := by
              intro p
              rw [installComponents_eq_foldl, icFold_lookup, hbase2, hfs2, hfs1]
              exact rfl
            have hlk2 : lookupFile
                (setFile (installComponents w2 (resolvedDir w2 d) comps (installBase w2 d, [])).1
                  (pjoin (pjoin (resolvedDir w2 d) frameworkDirName) "README.md")
                  (readmeContent comps))
                (pjoin (resolvedDir w2 d) ".gitignore") = some (g ++ gitignoreBlock) := by
              rw [lookupFile_setFile, if_neg hgne2, hlA2]
            have hr2 : installFramework w2 u d
                = ⟨setFile (installComponents w2 (resolvedDir w2 d) comps (installBase w2 d, [])).1
                      (pjoin (pjoin (resolvedDir w2 d) frameworkDirName) "README.md")
                      (readmeContent comps),
                    RunOutcome.completed,
                    (installComponents w2 (resolvedDir w2 d) comps (installBase w2 d, [])).2⟩ := by
              rw [hrun2, finishInstall_marker_present w2 (resolvedDir w2 d) comps _ _
                (g ++ gitignoreBlock) hwf2 hlk2 (containsMarker_append_block g) hr2r]
            have hD2 : ∀ q, (installComponents w2 (resolvedDir w2 d) comps
                (installBase w2 d, [])).1.isDir q
                = ((catalog.any fun c => comps.contains c.id
                      && coveredBy q (destPath (resolvedDir w d) c))
                    || (installComponents w (resolvedDir w d) comps
                        (installBase w d, [])).1.isDir q) := by
              intro q
              rw [installComponents_eq_foldl, icFold_isDir, hbase2, hfs2, hfs1,
                isDir_setFile, isDir_setFile]
              exact rfl
            refine ⟨?_, ?_, ?_⟩
            · rw [hr2]
            · intro p
              simp only [hr2, hfs1]
              exact replay_lookup_block (writesOf w (resolvedDir w d) comps catalog)
                (pjoin (pjoin (resolvedDir w d) frameworkDirName) "README.md")
                (readmeContent comps)
                (pjoin (resolvedDir w d) ".gitignore") (g ++ gitignoreBlock)
                (installComponents w (resolvedDir w d) comps (installBase w d, [])).1
                (installComponents w2 (resolvedDir w2 d) comps (installBase w2 d, [])).1
                (installBase w d) _ hgne hgW rfl hA hA2 p
            · intro q
              simp only [hr2, hfs1]
              rw [isDir_setFile, isDir_setFile, isDir_setFile, hD2,
                installComponents_eq_foldl, icFold_isDir, Bool.or_self_left]

theorem c3_witness :
    (installFramework okWorld ⟨true, [["javascript"]]⟩ ".").outcome = RunOutcome.completed ∧
    (installFramework { okWorld with fs := (installFramework okWorld ⟨true, [["javascript"]]⟩ ".").fs }
        ⟨true, [["javascript"]]⟩ ".").outcome = RunOutcome.completed ∧
    lookupFile (installFramework { okWorld with
        fs := (installFramework okWorld ⟨true, [["javascript"]]⟩ ".").fs }
          ⟨true, [["javascript"]]⟩ ".").fs "/proj/.naichii-agent/rules/javascript/x.md"
      = lookupFile (installFramework okWorld ⟨true, [["javascript"]]⟩ ".").fs
          "/proj/.naichii-agent/rules/javascript/x.md" :=
  ⟨rfl,
   (c3_install_idempotent okWorld ⟨true, [["javascript"]]⟩ "." rfl).1,
   (c3_install_idempotent okWorld ⟨true, [["javascript"]]⟩ "." rfl).2.1
     "/proj/.naichii-agent/rules/javascript/x.md"⟩

end NaichiiAgent
